import Mathlib

/-!
Excel analytics: aggregation, statistics and insights.

A shallow embedding of the chart-aggregation and statistics code of
`components/DataAnalysis.jsx` and of the functions of `utils/reportGenerator.js`:
insights, recommendations, the analysis report, the CSV export and the document report.

Conventions of the embedding.

* JavaScript numbers are idealised as exact rationals (`ℚ`): rounding,
  overflow, the infinities and the sign of zero are not represented. `NaN`
  only arises from a failed `parseFloat` and is represented by `none`.
* A row is the list of its own properties; reading a column that a row does
  not own gives the value inherited from `Object.prototype` under that name, if
  any, and `undefined` otherwise.
* The object `processedData` is the list of its own properties in creation
  order, together with the properties every plain object inherits from
  `Object.prototype`.
* A thrown exception is the `error` case of `Except`.
* The clock, the page size and the behaviour of the canvas and of the document library
  are parameters of the functions that use them.
-/

namespace ExcelAnalytics

/-! ## Cells and rows -/

/-- A cell value of a decoded row: text, a number, or `undefined` (no value). -/
inductive Cell where
  | str (s : String)
  | num (q : ℚ)
  | undefined
  deriving DecidableEq

/-- A decoded row: its own properties, column name and cell, in creation order. -/
abbrev Row := List (String × Cell)

/-- Names of the properties a plain object inherits from `Object.prototype`; each of
them reads as a function or object, hence truthy and without a `push` method. -/
def objectPrototypeKeys : List String :=
  ["constructor", "__defineGetter__", "__defineSetter__", "hasOwnProperty",
   "__lookupGetter__", "__lookupSetter__", "isPrototypeOf", "propertyIsEnumerable",
   "toString", "valueOf", "__proto__", "toLocaleString"]

/-- String form of the value that a plain object inherits under `name`: the native
function of that name (the function `Object` for `constructor`), as the V8 engine prints
native functions, or the prototype object itself for `__proto__`; `none` when nothing is
inherited under `name`. -/
def inheritedText (name : String) : Option String :=
  if name = "__proto__" then some "[object Object]"
  else if name = "constructor" then some "function Object() \x7b [native code] \x7d"
  else if name ∈ objectPrototypeKeys then
    some ("function " ++ name ++ "() \x7b [native code] \x7d")
  else none

/-- Property read `row[column]` on a row object: the own property when there is one, else
the inherited value, else `undefined`. The code reads a cell through its string form
(property key, `parseFloat`, template literal) or its truthiness only, and an inherited
function or object is truthy like a non-empty string, so an inherited value is
represented by the text of its string form. -/
def Row.get : Row → String → Cell
  | [], column =>
    match inheritedText column with
    | some text => Cell.str text
    | none => Cell.undefined
  | (k, c) :: rest, column => if k = column then c else Row.get rest column

/-- Exceptions raised by the embedded code. -/
inductive JSError where
  | typeError
  | referenceError
  | other (message : String)
  deriving DecidableEq

/-! ## Built-in conversions -/

/-- Decimal digits of the fraction `r / d` (with `r < d`), at most `fuel` of them. -/
def fracDigits : Nat → Nat → Nat → List Char
  | 0, _, _ => []
  | fuel + 1, r, d =>
    if r = 0 then [] else Char.ofNat (48 + 10 * r / d) :: fracDigits fuel (10 * r % d) d

/-- String form of a number (`Number::toString`), in plain decimal writing: exact for
integers below `10^21` in magnitude and for short terminating decimals of magnitude at
least `10^-6`, which is where the built-in does not switch to exponent writing. -/
def numberToString (q : ℚ) : String :=
  let n := q.num.natAbs
  let sign := if q < 0 then "-" else ""
  let frac := fracDigits 20 (n % q.den) q.den
  if frac = [] then sign ++ toString (n / q.den)
  else sign ++ toString (n / q.den) ++ "." ++ String.mk frac

/-- The abstract operation `ToString` on a cell, as used for property keys and by
`parseFloat`. -/
def Cell.toStr : Cell → String
  | Cell.str s => s
  | Cell.num q => numberToString q
  | Cell.undefined => "undefined"

/-- White space skipped by `parseFloat` at the start of its input. -/
def isStrWhiteSpaceChar (c : Char) : Bool :=
  c.toNat ∈ [0x09, 0x0A, 0x0B, 0x0C, 0x0D, 0x20, 0xA0, 0x1680, 0x2000, 0x2001, 0x2002,
    0x2003, 0x2004, 0x2005, 0x2006, 0x2007, 0x2008, 0x2009, 0x200A, 0x2028, 0x2029,
    0x202F, 0x205F, 0x3000, 0xFEFF]

/-- Value of a string of decimal digits. -/
def digitsVal (ds : List Char) : Nat :=
  ds.foldl (fun n c => 10 * n + (c.toNat - 48)) 0

/-- Exponent part of a decimal literal: `e` or `E`, an optional sign and at least one
digit; `0` when the text does not start with a complete exponent part. -/
def exponentPart : List Char → Int
  | c :: rest =>
    if c = 'e' ∨ c = 'E' then
      match rest with
      | '-' :: ds =>
        if (ds.takeWhile Char.isDigit) = [] then 0 else -(digitsVal (ds.takeWhile Char.isDigit) : Int)
      | '+' :: ds =>
        if (ds.takeWhile Char.isDigit) = [] then 0 else (digitsVal (ds.takeWhile Char.isDigit) : Int)
      | ds =>
        if (ds.takeWhile Char.isDigit) = [] then 0 else (digitsVal (ds.takeWhile Char.isDigit) : Int)
    else 0
  | [] => 0

/-- Unsigned part of `parseFloat`: the longest initial decimal literal
(`digits`, `digits.`, `digits.digits`, `.digits`, each with an optional exponent part);
`none` (NaN) when there is none. -/
def parseUnsigned (cs : List Char) : Option ℚ :=
  let whole := cs.takeWhile Char.isDigit
  let rest := cs.dropWhile Char.isDigit
  let frac := match rest with
    | '.' :: t => t.takeWhile Char.isDigit
    | _ => []
  let tail := match rest with
    | '.' :: t => t.dropWhile Char.isDigit
    | _ => rest
  if whole = [] ∧ frac = [] then none
  else some ((digitsVal (whole ++ frac) : ℚ) / (10 : ℚ) ^ frac.length * (10 : ℚ) ^ exponentPart tail)

/-- The built-in `parseFloat` on text: skip leading white space, read a sign and the
longest decimal literal. The literal `Infinity` has no rational value and is not
represented: it is reported as not parsing. -/
def parseFloatChars (cs : List Char) : Option ℚ :=
  match cs.dropWhile isStrWhiteSpaceChar with
  | '-' :: t => (parseUnsigned t).map (fun v => -v)
  | '+' :: t => parseUnsigned t
  | t => parseUnsigned t

/-- The built-in `parseFloat` applied to a cell. A number cell parses to itself (its
string form reads back as the same number) and `undefined` does not parse. -/
def parseFloat : Cell → Option ℚ
  | Cell.str s => parseFloatChars s.toList
  | Cell.num q => some q
  | Cell.undefined => none

/-- The expression `parseFloat(cell) || 0`: NaN and zero are falsy and give `0`. -/
def parseFloatOrZero (c : Cell) : ℚ :=
  match parseFloat c with
  | some v => if v = 0 then 0 else v
  | none => 0

/-! ## The object `processedData` -/

/-- Own properties of `processedData`, key and accumulated array, in creation order. -/
abbrev ProcessedData := List (String × List ℚ)

/-- Own property lookup. -/
def ownProperty : ProcessedData → String → Option (List ℚ)
  | [], _ => none
  | (k, v) :: rest, key => if k = key then some v else ownProperty rest key

/-- Result of the property read `processedData[key]`. -/
inductive PropertyValue where
  | array (vals : List ℚ)
  | inherited
  | undefined

/-- Property read `processedData[key]`: own property first, then the prototype. -/
def getProperty (pd : ProcessedData) (key : String) : PropertyValue :=
  match ownProperty pd key with
  | some vals => PropertyValue.array vals
  | none => if key ∈ objectPrototypeKeys then PropertyValue.inherited else PropertyValue.undefined

/-- In-place `processedData[key].push(y)` on an own property. -/
def pushOwn : ProcessedData → String → ℚ → ProcessedData
  | [], _, _ => []
  | (k, v) :: rest, key, y =>
    if k = key then (k, v ++ [y]) :: rest else (k, v) :: pushOwn rest key y

/-- Body of the `forEach` callback of `generateChart` (lines 57 to 66). -/
def processRow (xAxis yAxis : String) (processedData : ProcessedData) (row : Row) :
    Except JSError ProcessedData :=
  let xValue := (row.get xAxis).toStr
  let yValue := parseFloatOrZero (row.get yAxis)
  match getProperty processedData xValue with
  | PropertyValue.array _ => Except.ok (pushOwn processedData xValue yValue)
  | PropertyValue.inherited => Except.error JSError.typeError
  | PropertyValue.undefined => Except.ok (processedData ++ [(xValue, [yValue])])

/-- The loop `data.forEach(row => ...)` of `generateChart`, from a given object state. -/
def forEachRow (xAxis yAxis : String) : List Row → ProcessedData → Except JSError ProcessedData
  | [], processedData => Except.ok processedData
  | row :: rest, processedData =>
    match processRow xAxis yAxis processedData row with
    | Except.ok next => forEachRow xAxis yAxis rest next
    | Except.error e => Except.error e

/-- Array index of a property key: the number written by a canonical numeric string
(no sign, no leading zero) that is at most `2^32 - 2`. -/
def arrayIndex (key : String) : Option Nat :=
  let cs := key.toList
  if cs ≠ [] ∧ cs.all Char.isDigit = true ∧ (cs.head? ≠ some '0' ∨ cs.length = 1)
      ∧ digitsVal cs ≤ 4294967294 then
    some (digitsVal cs)
  else none

/-- Own keys that are array indices, paired with their index, in creation order. -/
def indexKeys (pd : ProcessedData) : List (Nat × String) :=
  pd.filterMap (fun p => (arrayIndex p.1).map (fun n => (n, p.1)))

/-- Own keys that are not array indices, in creation order. -/
def stringKeys (pd : ProcessedData) : List String :=
  (pd.filter (fun p => (arrayIndex p.1).isNone)).map (fun p => p.1)

/-- The built-in `Object.keys`: array-index keys in ascending numeric order, then the
other keys in creation order. -/
def objectKeys (pd : ProcessedData) : List String :=
  ((indexKeys pd).insertionSort (fun a b => a.1 ≤ b.1)).map (fun p => p.2) ++ stringKeys pd

/-- The reduction `vals.reduce((a, b) => a + b, 0) / vals.length` (line 71). -/
def average (vals : List ℚ) : ℚ :=
  vals.foldl (fun a b => a + b) 0 / (vals.length : ℚ)

/-- The map `labels.map(label => ...)` of lines 69 to 72; reading `reduce` from a value
that is not an array throws. -/
def labelValues (processedData : ProcessedData) : List String → Except JSError (List ℚ)
  | [] => Except.ok []
  | label :: rest =>
    match getProperty processedData label with
    | PropertyValue.array vals =>
      match labelValues processedData rest with
      | Except.ok values => Except.ok (average vals :: values)
      | Except.error e => Except.error e
    | _ => Except.error JSError.typeError

/-- The pair `{ labels, values }` handed to the chart. -/
structure SeriesResult where
  labels : List String
  values : List ℚ
  deriving DecidableEq

/-- Lines 55 to 72 of `generateChart`: group the rows, then list labels and averages. -/
def prepareChartData (data : List Row) (xAxis yAxis : String) : Except JSError SeriesResult :=
  match forEachRow xAxis yAxis data [] with
  | Except.error e => Except.error e
  | Except.ok processedData =>
    let labels := objectKeys processedData
    match labelValues processedData labels with
    | Except.error e => Except.error e
    | Except.ok values => Except.ok { labels := labels, values := values }

/-! ## Statistics (`calculateStats`) -/

/-- An uploaded file as held in `selectedData`. -/
structure FileData where
  name : String
  data : List Row
  headers : List String
  deriving DecidableEq

/-- The object returned by `calculateStats`. Reading an array element can give
`undefined`, so `median` is optional. -/
structure Statistics where
  sum : ℚ
  avg : ℚ
  min : ℚ
  max : ℚ
  median : Option ℚ
  count : Nat
  deriving DecidableEq

/-- The function `calculateStats` (lines 153 to 169), for the current `selectedData` and
`yAxis`. `none` is `null`. `Math.min` and `Math.max` of a non-empty argument list are its
least and greatest elements (the engine's limit on the number of spread arguments is not
represented). The comparator sort of numbers is the ascending arrangement, computed here
by insertion. -/
def calculateStats (selectedData : Option FileData) (yAxis : String) : Option Statistics :=
  match selectedData with
  | none => none
  | some file =>
    if yAxis = "" then none
    else
      let values := (file.data.map (fun row => parseFloat (row.get yAxis))).reduceOption
      match values with
      | [] => none
      | v :: vs =>
        let sum := values.foldl (fun a b => a + b) 0
        let avg := sum / (values.length : ℚ)
        let min := vs.foldl (fun a b => Min.min a b) v
        let max := vs.foldl (fun a b => Max.max a b) v
        let median := (values.insertionSort (fun a b => a ≤ b)).get? (values.length / 2)
        some { sum := sum, avg := avg, min := min, max := max, median := median,
               count := values.length }

/-! ## Chart generation (`generateChart`) -/

/-- The record `analysisData` built by `generateChart` (lines 136 to 143). -/
structure AnalysisData where
  fileName : String
  chartType : String
  xAxis : String
  yAxis : String
  data : SeriesResult
  stats : Option Statistics
  deriving DecidableEq

/-- The canvas element of the chart: `toDataURL` either gives the image data or throws. -/
structure Canvas where
  toDataURL : Except JSError String

/-- The function `generateChart` (lines 41 to 151) as a function of the component state
and of `chartRef.current`, which is the mounted canvas element, or `none` for `null`. The
canvas is rendered only inside `{chart && (...)}` (lines 303 to 325) and `chart` is set
only at line 133, so in the component as written the ref is `null` when `generateChart`
runs. The result is the analysis passed to `setCurrentAnalysis` and `onAnalysisComplete`;
`Except.ok none` is the early return of line 42, after which nothing is computed or
recorded; an error is an exception leaving the handler, with nothing recorded. Line 51
calls `getContext` on the ref and throws a `TypeError` when it is `null`. Drawing on a
mounted canvas is not represented. -/
def generateChart (selectedData : Option FileData) (xAxis yAxis chartType : String)
    (chartRefCurrent : Option Canvas) : Except JSError (Option AnalysisData) :=
  match selectedData with
  | none => Except.ok none
  | some file =>
    if xAxis = "" ∨ yAxis = "" then Except.ok none
    else
      match chartRefCurrent with
      | none => Except.error JSError.typeError
      | some _ =>
        match prepareChartData file.data xAxis yAxis with
        | Except.error e => Except.error e
        | Except.ok series =>
          Except.ok (some { fileName := file.name, chartType := chartType, xAxis := xAxis,
                            yAxis := yAxis, data := series,
                            stats := calculateStats selectedData yAxis })

/-! ## Insights (`generateInsights`) -/

/-- The method `toFixed(2)`: the nearest multiple of one hundredth, the larger one on a
tie, written with two decimals (numbers below `10^21` in magnitude). -/
def toFixed2 (x : ℚ) : String :=
  let n := (|x| * 100 + 1 / 2).floor.toNat
  (if x < 0 then "-" else "") ++ toString (n / 100) ++ "."
    ++ (if n % 100 < 10 then "0" else "") ++ toString (n % 100)

/-- Message pushed for a positive skew. -/
def positiveSkewMessage : String := "Data shows positive skew (right-tailed distribution)"

/-- Message pushed for a negative skew. -/
def negativeSkewMessage : String := "Data shows negative skew (left-tailed distribution)"

/-- Message pushed when the skew is within the threshold. -/
def normalMessage : String := "Data appears to be normally distributed"

/-- The block of lines 107 to 114: runs when `stats.avg && stats.median` is truthy, that
is when both are numbers other than zero. -/
def skewInsight (stats : Statistics) : List String :=
  match stats.median with
  | none => []
  | some median =>
    if stats.avg ≠ 0 ∧ median ≠ 0 then
      let skew := stats.avg - median
      if |skew| > stats.avg * (1 / 10) then
        [if skew > 0 then positiveSkewMessage else negativeSkewMessage]
      else [normalMessage]
    else []

/-- The block of lines 116 to 119: runs when `stats.max && stats.min` is truthy. -/
def rangeInsight (stats : Statistics) : List String :=
  if stats.max ≠ 0 ∧ stats.min ≠ 0 then
    ["Data range spans " ++ toFixed2 (stats.max - stats.min) ++ " units"]
  else []

/-- The block of lines 121 to 123: runs when `stats.count` is truthy. -/
def countInsight (stats : Statistics) : List String :=
  if stats.count ≠ 0 then ["Analysis based on " ++ toString stats.count ++ " data points"]
  else []

/-- The function `generateInsights` (lines 102 to 126 of `reportGenerator.js`). -/
def generateInsights (stats : Option Statistics) : List String :=
  match stats with
  | none => []
  | some stats => skewInsight stats ++ rangeInsight stats ++ countInsight stats

/-! ## Recommendations and report (`generateRecommendations`, `generateAnalysisReport`) -/

/-- The argument `analysisData` of the functions of `reportGenerator.js`: the record built
by `generateChart`, or any object of that shape. The optional chaining
`data?.labels?.length` lets the series be missing (a series without labels reads the same
way). -/
structure AnalysisRecord where
  fileName : String
  chartType : String
  xAxis : String
  yAxis : String
  data : Option SeriesResult
  stats : Option Statistics
  deriving DecidableEq

/-- The record built by `generateChart`, as the argument of the report functions. -/
def AnalysisData.toRecord (a : AnalysisData) : AnalysisRecord :=
  { fileName := a.fileName, chartType := a.chartType, xAxis := a.xAxis, yAxis := a.yAxis,
    data := some a.data, stats := a.stats }

/-- The expression `analysisData.data?.labels?.length`; `none` is `undefined`. -/
def labelsLength (a : AnalysisRecord) : Option Nat :=
  a.data.map (fun d => d.labels.length)

/-- The expression `analysisData.stats?.count`; `none` is `undefined`. -/
def statsCount (a : AnalysisRecord) : Option Nat :=
  a.stats.map (fun s => s.count)

/-- The comparison `x > n` of a possibly undefined number: false for `undefined`. -/
def gtNumber (x : Option Nat) (n : Nat) : Bool :=
  match x with
  | some v => decide (v > n)
  | none => false

/-- The comparison `x < n` of a possibly undefined number: false for `undefined`. -/
def ltNumber (x : Option Nat) (n : Nat) : Bool :=
  match x with
  | some v => decide (v < n)
  | none => false

/-- Recommendation pushed for a pie chart with many categories. -/
def barChartMessage : String :=
  "Consider using a bar chart for better readability with many categories"

/-- Recommendation pushed for a small sample. -/
def moreDataMessage : String :=
  "Consider collecting more data points for more reliable statistical analysis"

/-- First fixed recommendation. -/
def exportMessage : String := "Export this analysis for further processing in other tools"

/-- Second fixed recommendation. -/
def moreChartsMessage : String :=
  "Create additional visualizations to explore different aspects of your data"

/-- The function `generateRecommendations` (lines 128 to 143): the array after each
statement. -/
def generateRecommendations (analysisData : AnalysisRecord) : List String :=
  let recommendations0 : List String := []
  let recommendations1 :=
    if analysisData.chartType = "pie" ∧ gtNumber (labelsLength analysisData) 8 = true then
      recommendations0 ++ [barChartMessage]
    else recommendations0
  let recommendations2 :=
    if ltNumber (statsCount analysisData) 10 = true then recommendations1 ++ [moreDataMessage]
    else recommendations1
  let recommendations3 := recommendations2 ++ [exportMessage]
  recommendations3 ++ [moreChartsMessage]

/-- The two clock readings of `generateAnalysisReport`: `Date.now()` and
`new Date().toISOString()`. -/
structure Clock where
  now : Nat
  isoString : String
  deriving DecidableEq

/-- The field `axes` of a report. -/
structure Axes where
  x : String
  y : String
  deriving DecidableEq

/-- The object returned by `generateAnalysisReport`. -/
structure Report where
  reportId : String
  generatedAt : String
  fileName : String
  analysisType : String
  axes : Axes
  statistics : Option Statistics
  dataPoints : Nat
  insights : List String
  recommendations : List String
  deriving DecidableEq

/-- The function `generateAnalysisReport` (lines 85 to 100), for a given clock.
`length || 0` is the length when it is defined and not zero, else `0`. -/
def generateAnalysisReport (clock : Clock) (analysisData : AnalysisRecord) : Report :=
  { reportId := "RPT-" ++ toString clock.now,
    generatedAt := clock.isoString,
    fileName := analysisData.fileName,
    analysisType := analysisData.chartType,
    axes := { x := analysisData.xAxis, y := analysisData.yAxis },
    statistics := analysisData.stats,
    dataPoints :=
      (match labelsLength analysisData with
       | some n => if n = 0 then 0 else n
       | none => 0),
    insights := generateInsights analysisData.stats,
    recommendations := generateRecommendations analysisData }

/-! ## CSV export (`downloadCSVReport`) -/

/-- The built-in `Object.keys` on a row: its own keys in the enumeration order of
`objectKeys`. -/
def rowKeys (row : Row) : List String :=
  objectKeys (row.map (fun p => (p.1, ([] : List ℚ))))

/-- The built-in `Array.prototype.join` on an array of strings. -/
def arrayJoin (sep : String) : List String → String
  | [] => ""
  | s :: [] => s
  | s :: u :: t => s ++ sep ++ arrayJoin sep (u :: t)

/-- The interpolated expression `row[header] || ''`: a falsy cell (`undefined`, the empty
string, the number zero) gives the empty string, any other cell its string form. -/
def cellOrEmpty (c : Cell) : String :=
  match c with
  | Cell.str s => if s = "" then "" else s
  | Cell.num q => if q = 0 then "" else numberToString q
  | Cell.undefined => ""

/-- The template of line 69: the cell text between double quotes. -/
def csvField (row : Row) (header : String) : String :=
  "\"" ++ cellOrEmpty (row.get header) ++ "\""

/-- The file handed to the browser by `downloadCSVReport`. -/
structure Download where
  filename : String
  content : String
  deriving DecidableEq

/-- The function `downloadCSVReport` (lines 63 to 83): `none` is the early return of line
64 (no data or no rows), otherwise the download of `csvContent` under `filename`. -/
def downloadCSVReport (data : Option (List Row)) (filename : String) : Option Download :=
  match data with
  | none => none
  | some [] => none
  | some (first :: rest) =>
    let headers := rowKeys first
    let csvContent := arrayJoin "\n"
      (arrayJoin "," headers ::
        (first :: rest).map (fun row => arrayJoin "," (headers.map (fun header => csvField row header))))
    some { filename := filename, content := csvContent }

/-! ## Document report (`generatePDFReport`) -/

/-- A drawing call recorded by the document object `pdf`. -/
inductive PdfOp where
  | setFontSize (size : Nat)
  | setTextColor (r g b : Nat)
  | text (content : String) (x y : ℚ) (centered : Bool)
  | addPage
  | addImage (imageData : String) (format : String) (x y width height : ℚ)
  deriving DecidableEq

/-- The document: the drawing calls made on it, in order. -/
abbrev PdfDoc := List PdfOp

/-- What `generatePDFReport` takes from its surroundings: the page size reported by the
document library, the text of `new Date().toLocaleDateString()`, and whether the library
accepts an image (`addImage` throws otherwise). -/
structure PdfEnv where
  pageWidth : ℚ
  pageHeight : ℚ
  today : String
  addImage : String → Except JSError Unit

/-- The value of `generatePDFReport`: the document returned, and the errors passed to
`console.error` by the `catch` clause. -/
structure PdfResult where
  doc : PdfDoc
  consoleErrors : List JSError

/-- Lines 9 to 20: the title and the five report detail lines. -/
def titleAndDetails (env : PdfEnv) (analysisData : AnalysisRecord) : PdfDoc :=
  [PdfOp.setFontSize 20,
   PdfOp.setTextColor 40 40 40,
   PdfOp.text "Excel Analytics Report" (env.pageWidth / 2) 30 true,
   PdfOp.setFontSize 12,
   PdfOp.text ("File: " ++ analysisData.fileName) 20 50 false,
   PdfOp.text ("Generated: " ++ env.today) 20 60 false,
   PdfOp.text ("Chart Type: " ++ analysisData.chartType) 20 70 false,
   PdfOp.text ("X-Axis: " ++ analysisData.xAxis) 20 80 false,
   PdfOp.text ("Y-Axis: " ++ analysisData.yAxis) 20 90 false]

/-- The expression `stats.median?.toFixed(2) || 'N/A'`. -/
def medianText (stats : Statistics) : String :=
  match stats.median with
  | some m => if toFixed2 m = "" then "N/A" else toFixed2 m
  | none => "N/A"

/-- Lines 24 to 36: the body of `if (analysisData.stats)`, with `yPos = 125` declared by
`let` inside this block. -/
def statisticsSection (stats : Statistics) : PdfDoc :=
  let yPos : ℚ := 125
  [PdfOp.setFontSize 14,
   PdfOp.text "Statistical Summary:" 20 110 false,
   PdfOp.setFontSize 10,
   PdfOp.text ("Count: " ++ toString stats.count) 20 yPos false,
   PdfOp.text ("Sum: " ++ toFixed2 stats.sum) 20 (yPos + 10) false,
   PdfOp.text ("Average: " ++ toFixed2 stats.avg) 20 (yPos + 20) false,
   PdfOp.text ("Median: " ++ medianText stats) 20 (yPos + 30) false,
   PdfOp.text ("Minimum: " ++ numberToString stats.min) 20 (yPos + 40) false,
   PdfOp.text ("Maximum: " ++ numberToString stats.max) 20 (yPos + 50) false]

/-- The numeric variables in scope at line 47, inside the `try` block: the two
function-level constants and the two constants of the block. The variable `yPos` of line
29 is declared with `let` in the block of the statistics section, which has ended, and no
other declaration of that name exists. -/
def chartBlockScope (env : PdfEnv) (imgWidth imgHeight : ℚ) : List (String × ℚ) :=
  [("pageWidth", env.pageWidth), ("pageHeight", env.pageHeight),
   ("imgWidth", imgWidth), ("imgHeight", imgHeight)]

/-- Reading a variable: its value when it is in scope, else a `ReferenceError`. -/
def readVariable (scope : List (String × ℚ)) (name : String) : Except JSError ℚ :=
  match scope.lookup name with
  | some v => Except.ok v
  | none => Except.error JSError.referenceError

/-- The body of the `try` block (lines 42 to 54): the document reached, and the exception
thrown, if any. -/
def embedChart (env : PdfEnv) (pdf : PdfDoc) (chartCanvas : Canvas) : PdfDoc × Option JSError :=
  match chartCanvas.toDataURL with
  | Except.error e => (pdf, some e)
  | Except.ok chartImage =>
    let imgWidth := env.pageWidth - 40
    let imgHeight := imgWidth * 3 / 4
    match readVariable (chartBlockScope env imgWidth imgHeight) "yPos" with
    | Except.error e => (pdf, some e)
    | Except.ok yPos =>
      let paged : PdfDoc × ℚ :=
        if yPos + imgHeight > env.pageHeight - 40 then (pdf ++ [PdfOp.addPage], 30)
        else (pdf, 180)
      match env.addImage chartImage with
      | Except.error e => (paged.1, some e)
      | Except.ok _ =>
        (paged.1 ++ [PdfOp.addImage chartImage "PNG" 20 paged.2 imgWidth imgHeight], none)

/-- The function `generatePDFReport` (lines 4 to 61). A missing canvas is `none`; an
exception of the `try` block is caught and logged. -/
def generatePDFReport (env : PdfEnv) (analysisData : AnalysisRecord)
    (chartCanvas : Option Canvas) : PdfResult :=
  let pdf0 := titleAndDetails env analysisData
  let pdf1 :=
    match analysisData.stats with
    | some stats => pdf0 ++ statisticsSection stats
    | none => pdf0
  match chartCanvas with
  | none => { doc := pdf1, consoleErrors := [] }
  | some canvas =>
    match embedChart env pdf1 canvas with
    | (pdf2, some e) => { doc := pdf2, consoleErrors := [e] }
    | (pdf2, none) => { doc := pdf2, consoleErrors := [] }

/-! ## Notions used to state the properties -/

/-- Group key of a row: the string form of its group-column cell. -/
def groupKey (xAxis : String) (row : Row) : String := (row.get xAxis).toStr

/-- Contribution of a row: the parsed value-column number, `0` when parsing fails. -/
def contribution (yAxis : String) (row : Row) : ℚ :=
  match parseFloat (row.get yAxis) with
  | some v => v
  | none => 0

/-- Contributions of the rows whose group key is `label`, in row order. -/
def groupContributions (data : List Row) (xAxis yAxis label : String) : List ℚ :=
  (data.filter (fun row => groupKey xAxis row = label)).map (contribution yAxis)

/-- Distinct elements of a list in order of first occurrence. -/
def firstSeen : List String → List String
  | [] => []
  | k :: ks => k :: (firstSeen ks).filter (fun j => j ≠ k)

/-- The numbers parsed from the value column, one per row whose cell parses, in row
order. -/
def parsedValues (data : List Row) (yAxis : String) : List ℚ :=
  data.filterMap (fun row => parseFloat (row.get yAxis))


/-- The order of two distinct labels in the output of `Object.keys`: array-index keys
come first, in ascending numeric order; the other keys follow in the order in which
`keys`, the group keys of the rows in row order, first shows them. -/
def labelBefore (keys : List String) (a b : String) : Prop :=
  match arrayIndex a, arrayIndex b with
  | some m, some n => m < n
  | some _, none => True
  | none, some _ => False
  | none, none => keys.indexOf a < keys.indexOf b

instance (keys : List String) (a b : String) : Decidable (labelBefore keys a b) := by
  unfold labelBefore
  split <;> infer_instance

/-! ## Sample data -/

/-- The three sales rows of the worked example. -/
def salesRows : List Row :=
  [[("region", Cell.str "East"), ("sales", Cell.str "10")],
   [("region", Cell.str "East"), ("sales", Cell.str "20")],
   [("region", Cell.str "West"), ("sales", Cell.str "5")]]

/-- The sales rows as an uploaded file. -/
def salesFile : FileData :=
  { name := "sales.xlsx", data := salesRows, headers := ["region", "sales"] }

/-- A single row whose group cell holds the text `constructor`. -/
def constructorRows : List Row :=
  [[("region", Cell.str "constructor"), ("sales", Cell.str "10")]]

/-- Rows with the group keys `b`, `2`, `1`, in this order. -/
def mixedKeyRows : List Row :=
  [[("k", Cell.str "b"), ("v", Cell.str "1")],
   [("k", Cell.str "2"), ("v", Cell.str "2")],
   [("k", Cell.str "1"), ("v", Cell.str "3")]]

/-- One group whose value cells are `N/A`, `4` and `6`. -/
def partlyNumericRows : List Row :=
  [[("g", Cell.str "a"), ("v", Cell.str "N/A")],
   [("g", Cell.str "a"), ("v", Cell.str "4")],
   [("g", Cell.str "a"), ("v", Cell.str "6")]]

/-- The rows of `partlyNumericRows` as an uploaded file. -/
def partlyNumericFile : FileData :=
  { name := "mixed.xlsx", data := partlyNumericRows, headers := ["g", "v"] }

/-- Four rows with the value cells `1`, `2`, `3`, `4`. -/
def fourValuesFile : FileData :=
  { name := "four.xlsx",
    data := [[("v", Cell.num 1)], [("v", Cell.num 2)], [("v", Cell.num 3)], [("v", Cell.num 4)]],
    headers := ["v"] }

/-- Three rows with the value cells `-10`, `5`, `5`: their average is 0, their median 5. -/
def zeroAverageFile : FileData :=
  { name := "balance.xlsx",
    data := [[("v", Cell.num (-10))], [("v", Cell.num 5)], [("v", Cell.num 5)]],
    headers := ["v"] }

/-- The statistics of `zeroAverageFile`. -/
def zeroAverageStats : Statistics :=
  { sum := 0, avg := 0, min := -10, max := 5, median := some 5, count := 3 }

/-- Three rows with the value cells `0`, `5`, `10`. -/
def zeroMinimumFile : FileData :=
  { name := "stock.xlsx",
    data := [[("v", Cell.num 0)], [("v", Cell.num 5)], [("v", Cell.num 10)]],
    headers := ["v"] }

/-- The statistics of `zeroMinimumFile`. -/
def zeroMinimumStats : Statistics :=
  { sum := 15, avg := 5, min := 0, max := 10, median := some 5, count := 3 }

/-- The statistics of the sales rows. -/
def salesStats : Statistics :=
  { sum := 35, avg := 35 / 3, min := 5, max := 20, median := some 10, count := 3 }

/-- The analysis of the sales rows by region, as a pie chart. -/
def salesRecord : AnalysisRecord :=
  { fileName := "sales.xlsx", chartType := "pie", xAxis := "region", yAxis := "sales",
    data := some { labels := ["East", "West"], values := [15, 5] },
    stats := some salesStats }

/-- The analysis of the sales rows with the value column `profit`, which no row has: the
statistics are absent. -/
def noStatsRecord : AnalysisRecord :=
  { fileName := "sales.xlsx", chartType := "bar", xAxis := "region", yAxis := "profit",
    data := some { labels := ["East", "West"], values := [0, 0] },
    stats := none }

/-- A pie chart with nine labels and twelve data points. -/
def ninePieRecord : AnalysisRecord :=
  { fileName := "many.xlsx", chartType := "pie", xAxis := "k", yAxis := "v",
    data := some { labels := ["a", "b", "c", "d", "e", "f", "g", "h", "i"],
                   values := [1, 1, 1, 1, 1, 1, 1, 1, 1] },
    stats := some { sum := 12, avg := 1, min := 1, max := 1, median := some 1, count := 12 } }

/-- One row whose only cell holds a text of two lines. -/
def twoLineCellRows : List Row := [[("note", Cell.str "x\ny")]]

/-- One row with a text cell and a cell holding the number 0. -/
def zeroCellRows : List Row := [[("item", Cell.str "bolt"), ("qty", Cell.num 0)]]

/-- An A4 page in millimetres, and a library that accepts every image. -/
def a4Env : PdfEnv :=
  { pageWidth := 210, pageHeight := 297, today := "11/6/2026",
    addImage := fun _ => Except.ok () }

/-- A canvas whose rasterization succeeds. -/
def okCanvas : Canvas := { toDataURL := Except.ok "data:image/png;base64,iVBORw0KGgo=" }

/-- The lines of a text: its pieces between newline characters (`text.split` on the
newline character). -/
def splitLines (text : String) : List String :=
  (text.toList.splitOn '\n').map String.mk


/-- One row whose group cell holds the text `name`, after a row of the group `East`. -/
def rowsWithKey (name : String) : List Row :=
  [[("region", Cell.str "East"), ("sales", Cell.str "10")],
   [("region", Cell.str name), ("sales", Cell.str "5")]]

/-! ## Grouping loop -/

theorem parseFloatOrZero_eq (c : Cell) :
    parseFloatOrZero c = (match parseFloat c with | some v => v | none => 0) := by
  unfold parseFloatOrZero
  cases parseFloat c with
  | none => rfl
  | some v => by_cases h : v = 0 <;> simp [h]

theorem mem_firstSeen (l : List String) (a : String) : a ∈ firstSeen l ↔ a ∈ l := by
  induction l with
  | nil => simp [firstSeen]
  | cons k ks ih =>
    simp only [firstSeen, List.mem_cons, List.mem_filter, ih]
    by_cases h : a = k <;> simp [h]

theorem nodup_firstSeen (l : List String) : (firstSeen l).Nodup := by
  induction l with
  | nil => simp [firstSeen]
  | cons k ks ih =>
    simp only [firstSeen, List.nodup_cons, List.mem_filter]
    exact ⟨by simp, ih.filter _⟩

theorem ownProperty_isSome (pd : ProcessedData) (key : String) :
    (ownProperty pd key).isSome = true ↔ key ∈ pd.map Prod.fst := by
  induction pd with
  | nil => simp [ownProperty]
  | cons p rest ih =>
    obtain ⟨k, v⟩ := p
    by_cases h : k = key
    · simp [ownProperty, h]
    · simp [ownProperty, h, ih, Ne.symm h]

theorem ownProperty_eq_none (pd : ProcessedData) (key : String) :
    ownProperty pd key = none ↔ key ∉ pd.map Prod.fst := by
  rw [← ownProperty_isSome]
  cases ownProperty pd key <;> simp

theorem map_fst_pushOwn (pd : ProcessedData) (key : String) (y : ℚ) :
    (pushOwn pd key y).map Prod.fst = pd.map Prod.fst := by
  induction pd with
  | nil => rfl
  | cons p rest ih =>
    obtain ⟨k, v⟩ := p
    by_cases h : k = key <;> simp [pushOwn, h, ih]

theorem ownProperty_pushOwn (pd : ProcessedData) (key j : String) (y : ℚ) :
    ownProperty (pushOwn pd key y) j =
      if j = key then (ownProperty pd key).map (fun v => v ++ [y]) else ownProperty pd j := by
  induction pd with
  | nil => simp [pushOwn, ownProperty]
  | cons p rest ih =>
    obtain ⟨k, v⟩ := p
    by_cases h : k = key
    · subst h
      by_cases hj : j = k
      · simp [pushOwn, ownProperty, hj]
      · simp [pushOwn, ownProperty, hj, Ne.symm hj]
    · by_cases hj : j = key
      · subst hj
        simp [pushOwn, ownProperty, h, ih]
      · simp only [pushOwn, h, if_false, ownProperty, ih, hj]

theorem ownProperty_append_singleton (pd : ProcessedData) (key j : String) (v : List ℚ) :
    ownProperty (pd ++ [(key, v)]) j =
      match ownProperty pd j with
      | some w => some w
      | none => if key = j then some v else none := by
  induction pd with
  | nil => simp [ownProperty]
  | cons p rest ih =>
    obtain ⟨k, w⟩ := p
    by_cases h : k = j <;> simp [ownProperty, h, ih]
theorem getProperty_array_iff (pd : ProcessedData) (key : String) (vals : List ℚ) :
    getProperty pd key = PropertyValue.array vals ↔ ownProperty pd key = some vals := by
  unfold getProperty
  cases h : ownProperty pd key with
  | none => by_cases hk : key ∈ objectPrototypeKeys <;> simp [hk]
  | some w => simp

theorem processRow_ok (xAxis yAxis : String) (pd pd1 : ProcessedData) (row : Row)
    (h : processRow xAxis yAxis pd row = Except.ok pd1) :
    (pd1.map Prod.fst =
        if groupKey xAxis row ∈ pd.map Prod.fst then pd.map Prod.fst
        else pd.map Prod.fst ++ [groupKey xAxis row]) ∧
      ∀ j, ownProperty pd1 j =
        if j = groupKey xAxis row then
          some ((ownProperty pd (groupKey xAxis row)).getD [] ++ [contribution yAxis row])
        else ownProperty pd j := by
  unfold processRow getProperty at h
  rw [parseFloatOrZero_eq] at h
  change (match (match ownProperty pd (groupKey xAxis row) with
      | some vals => PropertyValue.array vals
      | none => if groupKey xAxis row ∈ objectPrototypeKeys then PropertyValue.inherited
          else PropertyValue.undefined) with
    | PropertyValue.array _ => Except.ok (pushOwn pd (groupKey xAxis row) (contribution yAxis row))
    | PropertyValue.inherited => Except.error JSError.typeError
    | PropertyValue.undefined =>
      Except.ok (pd ++ [(groupKey xAxis row, [contribution yAxis row])])) = Except.ok pd1 at h
  cases hown : ownProperty pd (groupKey xAxis row) with
  | some vals =>
    rw [hown] at h
    simp only [Except.ok.injEq] at h
    subst h
    have hmem : groupKey xAxis row ∈ pd.map Prod.fst := by
      rw [← ownProperty_isSome, hown]; rfl
    refine ⟨by rw [map_fst_pushOwn, if_pos hmem], fun j => ?_⟩
    rw [ownProperty_pushOwn, hown]
    simp
  | none =>
    rw [hown] at h
    have hmem : groupKey xAxis row ∉ pd.map Prod.fst := (ownProperty_eq_none _ _).1 hown
    by_cases hp : groupKey xAxis row ∈ objectPrototypeKeys
    · simp [hp] at h
    · simp only [hp, if_false, Except.ok.injEq] at h
      subst h
      refine ⟨by rw [if_neg hmem]; simp, fun j => ?_⟩
      rw [ownProperty_append_singleton]
      by_cases hj : j = groupKey xAxis row
      · subst hj; simp [hown]
      · have hj2 : ¬ groupKey xAxis row = j := fun e => hj e.symm
        cases ownProperty pd j <;> simp [hj, hj2]

theorem groupContributions_cons (row : Row) (rest : List Row) (xAxis yAxis j : String) :
    groupContributions (row :: rest) xAxis yAxis j =
      if groupKey xAxis row = j then contribution yAxis row :: groupContributions rest xAxis yAxis j
      else groupContributions rest xAxis yAxis j := by
  unfold groupContributions
  by_cases h : groupKey xAxis row = j <;> simp [List.filter_cons, h]

theorem forEachRow_ok (xAxis yAxis : String) (data : List Row) :
    ∀ (pd pd2 : ProcessedData), forEachRow xAxis yAxis data pd = Except.ok pd2 →
      (pd2.map Prod.fst = pd.map Prod.fst ++
          (firstSeen (data.map (groupKey xAxis))).filter (fun j => j ∉ pd.map Prod.fst)) ∧
      ∀ j, ownProperty pd2 j =
        if j ∈ pd.map Prod.fst ∨ j ∈ data.map (groupKey xAxis) then
          some ((ownProperty pd j).getD [] ++ groupContributions data xAxis yAxis j)
        else none := by
  induction data with
  | nil =>
    intro pd pd2 h
    simp only [forEachRow, Except.ok.injEq] at h
    subst h
    refine ⟨by simp [firstSeen], fun j => ?_⟩
    by_cases hj : j ∈ pd.map Prod.fst
    · have := (ownProperty_isSome pd j).2 hj
      cases ho : ownProperty pd j with
      | none => rw [ho] at this; simp at this
      | some w => simp [groupContributions, hj]
    · have := (ownProperty_eq_none pd j).2 hj
      simp [hj, this]
  | cons row rest ih =>
    intro pd pd2 h
    simp only [forEachRow] at h
    cases hstep : processRow xAxis yAxis pd row with
    | error e => rw [hstep] at h; simp at h
    | ok pd1 =>
      rw [hstep] at h
      simp only at h
      obtain ⟨hk1, ho1⟩ := processRow_ok xAxis yAxis pd pd1 row hstep
      obtain ⟨hk2, ho2⟩ := ih pd1 pd2 h
      by_cases hmem : groupKey xAxis row ∈ pd.map Prod.fst
      · rw [if_pos hmem] at hk1
        rw [hk1] at hk2 ho2
        constructor
        · rw [hk2]
          simp only [List.map_cons, firstSeen, List.filter_cons, hmem,
            not_true_eq_false, decide_False, Bool.false_eq_true, if_false, List.filter_filter]
          congr 1
          apply List.filter_congr
          intro j _
          by_cases hj : j ∈ pd.map Prod.fst
          · simp [hj]
          · have : j ≠ groupKey xAxis row := fun e => hj (e ▸ hmem)
            simp [hj, this]
        · intro j
          rw [ho2 j, ho1 j, groupContributions_cons]
          by_cases hj : j = groupKey xAxis row
          · subst hj
            simp [hmem]
          · have hj2 : ¬ groupKey xAxis row = j := fun e => hj e.symm
            simp only [hj, hj2, if_false, List.map_cons, List.mem_cons, false_or,
              List.mem_append, List.mem_singleton, or_false, List.not_mem_nil]
      · rw [if_neg hmem] at hk1
        rw [hk1] at hk2 ho2
        constructor
        · rw [hk2]
          simp only [List.map_cons, firstSeen, List.filter_cons, hmem,
            not_false_eq_true, decide_True, if_true, List.filter_filter, List.append_assoc,
            List.singleton_append]
          congr 2
          apply List.filter_congr
          intro j _
          by_cases hj : j ∈ pd.map Prod.fst <;>
            by_cases hj2 : j = groupKey xAxis row <;> simp [hj, hj2]
        · intro j
          rw [ho2 j, ho1 j, groupContributions_cons]
          by_cases hj : j = groupKey xAxis row
          · subst hj
            simp [hmem]
          · have hj2 : ¬ groupKey xAxis row = j := fun e => hj e.symm
            simp only [hj, hj2, if_false, List.map_cons, List.mem_cons, false_or,
              List.mem_append, List.mem_singleton, or_false, List.not_mem_nil]
theorem forEachRow_keys (xAxis yAxis : String) (data : List Row) (pd : ProcessedData)
    (h : forEachRow xAxis yAxis data [] = Except.ok pd) :
    pd.map Prod.fst = firstSeen (data.map (groupKey xAxis)) := by
  have := (forEachRow_ok xAxis yAxis data [] pd h).1
  simpa using this

theorem forEachRow_own (xAxis yAxis : String) (data : List Row) (pd : ProcessedData)
    (h : forEachRow xAxis yAxis data [] = Except.ok pd) (j : String) :
    ownProperty pd j =
      if j ∈ data.map (groupKey xAxis) then some (groupContributions data xAxis yAxis j)
      else none := by
  have := (forEachRow_ok xAxis yAxis data [] pd h).2 j
  simpa [ownProperty] using this

theorem labelValues_own (pd : ProcessedData) (f : String → List ℚ) :
    ∀ (labels : List String), (∀ l ∈ labels, ownProperty pd l = some (f l)) →
      labelValues pd labels = Except.ok (labels.map (fun l => average (f l))) := by
  intro labels
  induction labels with
  | nil => intro _; rfl
  | cons l rest ih =>
    intro h
    have h1 := h l (List.mem_cons_self _ _)
    have h2 := ih (fun k hk => h k (List.mem_cons_of_mem _ hk))
    simp [labelValues, getProperty, h1, h2]

theorem foldl_add_eq_sum (vals : List ℚ) (a : ℚ) :
    vals.foldl (fun a b => a + b) a = a + vals.sum := by
  induction vals generalizing a with
  | nil => simp
  | cons v vs ih => simp [List.foldl_cons, ih, add_assoc]

theorem average_eq (vals : List ℚ) : average vals = vals.sum / (vals.length : ℚ) := by
  unfold average
  rw [foldl_add_eq_sum, zero_add]

theorem indexKeys_map_snd (pd : ProcessedData) :
    (indexKeys pd).map Prod.snd =
      (pd.map Prod.fst).filter (fun k => (arrayIndex k).isSome) := by
  induction pd with
  | nil => rfl
  | cons p rest ih =>
    obtain ⟨k, v⟩ := p
    unfold indexKeys at ih ⊢
    cases hk : arrayIndex k with
    | none => simp [List.filterMap_cons, hk, ih]
    | some n => simp [List.filterMap_cons, hk, ih]

theorem stringKeys_eq (pd : ProcessedData) :
    stringKeys pd = (pd.map Prod.fst).filter (fun k => (arrayIndex k).isNone) := by
  unfold stringKeys
  induction pd with
  | nil => rfl
  | cons p rest ih =>
    obtain ⟨k, v⟩ := p
    cases hk : arrayIndex k <;> simp [List.filter_cons, hk, ih]

theorem objectKeys_perm (pd : ProcessedData) : (objectKeys pd).Perm (pd.map Prod.fst) := by
  unfold objectKeys
  have h1 : (((indexKeys pd).insertionSort (fun a b => a.1 ≤ b.1)).map (fun p => p.2)).Perm
      ((pd.map Prod.fst).filter (fun k => (arrayIndex k).isSome)) := by
    rw [← indexKeys_map_snd]
    exact (List.perm_insertionSort _ _).map _
  rw [stringKeys_eq]
  refine (h1.append (List.Perm.refl _)).trans ?_
  have := List.filter_append_perm (fun k => (arrayIndex k).isSome) (pd.map Prod.fst)
  refine List.Perm.trans ?_ this
  apply List.Perm.append (List.Perm.refl _)
  apply List.Perm.of_eq
  apply List.filter_congr
  intro k _
  cases arrayIndex k <;> simp

/-! ## Array-index keys -/

theorem digitsVal_foldl (cs : List Char) (a : Nat) :
    cs.foldl (fun n c => 10 * n + (c.toNat - 48)) a =
      Nat.ofDigits 10 ((cs.map (fun c => c.toNat - 48)).reverse ++ [a]) := by
  induction cs generalizing a with
  | nil => simp [Nat.ofDigits_singleton]
  | cons c t ih =>
    simp only [List.foldl_cons, ih, List.map_cons, List.reverse_cons, List.append_assoc,
      List.singleton_append]
    simp only [Nat.ofDigits_append, Nat.ofDigits_cons, Nat.ofDigits_singleton, Nat.ofDigits_nil]
    ring

theorem digitsVal_eq_ofDigits (cs : List Char) :
    digitsVal cs = Nat.ofDigits 10 ((cs.map (fun c => c.toNat - 48)).reverse) := by
  unfold digitsVal
  rw [digitsVal_foldl]
  simp [Nat.ofDigits_append, Nat.ofDigits_singleton]

theorem isDigit_bounds (c : Char) (h : c.isDigit = true) : 48 ≤ c.toNat ∧ c.toNat ≤ 57 := by
  simp only [Char.isDigit, Bool.and_eq_true, decide_eq_true_eq] at h
  exact ⟨h.1, h.2⟩

theorem digit_inj (c d : Char) (hc : c.isDigit = true) (hd : d.isDigit = true)
    (h : c.toNat - 48 = d.toNat - 48) : c = d := by
  have h1 := isDigit_bounds c hc
  have h2 := isDigit_bounds d hd
  have h3 : c.toNat = d.toNat := by omega
  rw [← Char.ofNat_toNat c, ← Char.ofNat_toNat d, h3]

theorem map_digit_inj : ∀ (cs ds : List Char), (∀ c ∈ cs, c.isDigit = true) →
    (∀ d ∈ ds, d.isDigit = true) →
    cs.map (fun c => c.toNat - 48) = ds.map (fun c => c.toNat - 48) → cs = ds := by
  intro cs
  induction cs with
  | nil => intro ds _ _ h; cases ds with
    | nil => rfl
    | cons d t => simp at h
  | cons c t ih =>
    intro ds hc hd h
    cases ds with
    | nil => simp at h
    | cons d u =>
      simp only [List.map_cons, List.cons.injEq] at h
      have e1 := digit_inj c d (hc c (List.mem_cons_self _ _)) (hd d (List.mem_cons_self _ _)) h.1
      have e2 := ih u (fun x hx => hc x (List.mem_cons_of_mem _ hx))
        (fun x hx => hd x (List.mem_cons_of_mem _ hx)) h.2
      rw [e1, e2]

theorem digits_digitsVal (cs : List Char) (hne : cs ≠ []) (hd : ∀ c ∈ cs, c.isDigit = true)
    (h0 : cs.head? ≠ some '0') :
    Nat.digits 10 (digitsVal cs) = (cs.map (fun c => c.toNat - 48)).reverse := by
  rw [digitsVal_eq_ofDigits]
  apply Nat.digits_ofDigits 10 (by norm_num)
  · intro l hl
    simp only [List.mem_reverse, List.mem_map] at hl
    obtain ⟨c, hc, rfl⟩ := hl
    have := isDigit_bounds c (hd c hc)
    omega
  · intro hne2
    cases cs with
    | nil => exact absurd rfl hne
    | cons c t =>
      intro hz
      have hz2 : c.toNat - 48 = 0 := by
        simpa [List.map_cons, List.reverse_cons] using hz
      have hb := isDigit_bounds c (hd c (List.mem_cons_self _ _))
      apply h0
      have : c = '0' := by
        have h3 : c.toNat = 48 := by omega
        rw [← Char.ofNat_toNat c, h3]
      simp [this]

theorem arrayIndex_eq_some (key : String) (n : Nat) (h : arrayIndex key = some n) :
    key.toList ≠ [] ∧ (∀ c ∈ key.toList, c.isDigit = true) ∧
      (key.toList.head? ≠ some '0' ∨ key.toList.length = 1) ∧ digitsVal key.toList = n := by
  unfold arrayIndex at h
  simp only at h
  split at h
  · rename_i hc
    simp only [Option.some.injEq] at h
    refine ⟨hc.1, ?_, hc.2.2.1, h⟩
    intro c hcm
    exact List.all_eq_true.1 hc.2.1 c hcm
  · simp at h

theorem canonical_zero (cs : List Char) (hne : cs ≠ []) (hd : ∀ c ∈ cs, c.isDigit = true)
    (h0 : cs.head? ≠ some '0' ∨ cs.length = 1) (hv : digitsVal cs = 0) : cs = ['0'] := by
  by_cases hh : cs.head? ≠ some '0'
  · have := digits_digitsVal cs hne hd hh
    rw [hv] at this
    simp at this
    exact absurd this hne
  · have hlen : cs.length = 1 := by
      rcases h0 with h | h
      · exact absurd h hh
      · exact h
    push_neg at hh
    cases cs with
    | nil => simp at hlen
    | cons c t =>
      cases t with
      | nil => simp at hh; rw [hh]
      | cons d u => simp at hlen

theorem arrayIndex_inj (a b : String) (n : Nat) (ha : arrayIndex a = some n)
    (hb : arrayIndex b = some n) : a = b := by
  obtain ⟨ane, ad, a0, av⟩ := arrayIndex_eq_some a n ha
  obtain ⟨bne, bd, b0, bv⟩ := arrayIndex_eq_some b n hb
  have key : a.toList = b.toList := by
    by_cases hz : n = 0
    · subst hz
      rw [canonical_zero _ ane ad a0 av, canonical_zero _ bne bd b0 bv]
    · have ha0 : a.toList.head? ≠ some '0' := by
        intro hh
        rcases a0 with h | h
        · exact h hh
        · have : a.toList = ['0'] := by
            cases hl : a.toList with
            | nil => exact absurd hl ane
            | cons c t =>
              rw [hl] at hh h
              cases t with
              | nil => simp at hh; rw [hh]
              | cons d u => simp at h
          rw [this] at av
          exact hz (by rw [← av]; rfl)
      have hb0 : b.toList.head? ≠ some '0' := by
        intro hh
        rcases b0 with h | h
        · exact h hh
        · have : b.toList = ['0'] := by
            cases hl : b.toList with
            | nil => exact absurd hl bne
            | cons c t =>
              rw [hl] at hh h
              cases t with
              | nil => simp at hh; rw [hh]
              | cons d u => simp at h
          rw [this] at bv
          exact hz (by rw [← bv]; rfl)
      have e1 := digits_digitsVal _ ane ad ha0
      have e2 := digits_digitsVal _ bne bd hb0
      rw [av] at e1
      rw [bv] at e2
      have e3 := e1.symm.trans e2
      exact map_digit_inj _ _ ad bd (List.reverse_injective e3)
  exact String.ext key

/-! ## Aggregation results -/

theorem prepareChartData_ok (data : List Row) (xAxis yAxis : String) (res : SeriesResult)
    (h : prepareChartData data xAxis yAxis = Except.ok res) :
    ∃ pd, forEachRow xAxis yAxis data [] = Except.ok pd ∧ res.labels = objectKeys pd ∧
      res.values = res.labels.map (fun l => average (groupContributions data xAxis yAxis l)) := by
  unfold prepareChartData at h
  cases hloop : forEachRow xAxis yAxis data [] with
  | error e => rw [hloop] at h; simp at h
  | ok pd =>
    rw [hloop] at h
    have hown : ∀ l ∈ objectKeys pd,
        ownProperty pd l = some (groupContributions data xAxis yAxis l) := by
      intro l hl
      have hl2 : l ∈ pd.map Prod.fst := (objectKeys_perm pd).mem_iff.1 hl
      rw [forEachRow_keys xAxis yAxis data pd hloop, mem_firstSeen] at hl2
      rw [forEachRow_own xAxis yAxis data pd hloop, if_pos hl2]
    have hv := labelValues_own pd (groupContributions data xAxis yAxis) (objectKeys pd) hown
    simp only [hv, Except.ok.injEq] at h
    subst h
    exact ⟨pd, rfl, rfl, rfl⟩

theorem prepareChartData_labels (data : List Row) (xAxis yAxis : String) (res : SeriesResult)
    (h : prepareChartData data xAxis yAxis = Except.ok res) :
    res.labels.length = res.values.length ∧ res.labels.Nodup ∧
      ∀ l, l ∈ res.labels ↔ ∃ row ∈ data, groupKey xAxis row = l := by
  obtain ⟨pd, hloop, hl, hv⟩ := prepareChartData_ok data xAxis yAxis res h
  have hperm : res.labels.Perm (firstSeen (data.map (groupKey xAxis))) := by
    rw [hl, ← forEachRow_keys xAxis yAxis data pd hloop]
    exact objectKeys_perm pd
  refine ⟨by rw [hv, List.length_map], hperm.nodup_iff.2 (nodup_firstSeen _), fun l => ?_⟩
  rw [hperm.mem_iff, mem_firstSeen, List.mem_map]

theorem groupContributions_ne_nil (data : List Row) (xAxis yAxis : String) (row : Row)
    (h : row ∈ data) : groupContributions data xAxis yAxis (groupKey xAxis row) ≠ [] := by
  unfold groupContributions
  intro hnil
  have hmem : row ∈ data.filter (fun r => groupKey xAxis r = groupKey xAxis row) := by
    simp [List.mem_filter, h]
  rw [List.map_eq_nil_iff] at hnil
  rw [hnil] at hmem
  simp at hmem

theorem indexKeys_spec (pd : ProcessedData) (p : Nat × String) (h : p ∈ indexKeys pd) :
    arrayIndex p.2 = some p.1 := by
  unfold indexKeys at h
  simp only [List.mem_filterMap, Option.map_eq_some'] at h
  obtain ⟨q, _, n, hn, rfl⟩ := h
  exact hn

theorem indexKeys_sorted (pd : ProcessedData) (hnd : (pd.map Prod.fst).Nodup) :
    (((indexKeys pd).insertionSort (fun a b => a.1 ≤ b.1)).map (fun p => p.2)).Pairwise
      (fun a b => ∃ m n, arrayIndex a = some m ∧ arrayIndex b = some n ∧ m < n) := by
  haveI : IsTotal (Nat × String) (fun a b => a.1 ≤ b.1) := ⟨fun a b => Nat.le_total a.1 b.1⟩
  haveI : IsTrans (Nat × String) (fun a b => a.1 ≤ b.1) :=
    ⟨fun a b c hab hbc => Nat.le_trans hab hbc⟩
  have hs : ((indexKeys pd).insertionSort (fun a b => a.1 ≤ b.1)).Pairwise
      (fun a b => a.1 ≤ b.1) := List.sorted_insertionSort _ _
  have hperm := List.perm_insertionSort (fun (a b : Nat × String) => a.1 ≤ b.1) (indexKeys pd)
  have hnd2 : (((indexKeys pd).insertionSort (fun a b => a.1 ≤ b.1)).map Prod.snd).Nodup := by
    rw [(hperm.map Prod.snd).nodup_iff, indexKeys_map_snd]
    exact hnd.filter _
  have hnd3 := List.pairwise_map.1 hnd2
  rw [List.pairwise_map]
  have hboth := hs.and hnd3
  refine hboth.imp_of_mem ?_
  intro a b ha hb hab
  have sa := indexKeys_spec pd a (hperm.mem_iff.1 ha)
  have sb := indexKeys_spec pd b (hperm.mem_iff.1 hb)
  refine ⟨a.1, b.1, sa, sb, lt_of_le_of_ne hab.1 ?_⟩
  intro heq
  apply hab.2
  rw [heq] at sa
  exact arrayIndex_inj _ _ _ sa sb

theorem values_mean_aux (data : List Row) (xAxis yAxis : String) (res : SeriesResult)
    (h : prepareChartData data xAxis yAxis = Except.ok res) :
    res.values = res.labels.map (fun l =>
        (groupContributions data xAxis yAxis l).sum /
          ((data.filter (fun row => groupKey xAxis row = l)).length : ℚ)) := by
  obtain ⟨pd, _, _, hv⟩ := prepareChartData_ok data xAxis yAxis res h
  rw [hv]
  apply List.map_congr_left
  intro l _
  rw [average_eq]
  simp [groupContributions]

/-! ## Order of the labels -/

theorem indexOf_firstSeen_filter (l : List String) :
    ∀ (p : String → Bool) (a b : String), p a = true → p b = true → a ∈ l → b ∈ l →
      (((firstSeen l).filter p).indexOf a < ((firstSeen l).filter p).indexOf b ↔
        l.indexOf a < l.indexOf b) := by
  induction l with
  | nil => intro p a b _ _ ha _; simp at ha
  | cons k ks ih =>
    intro p a b pa pb ha hb
    simp only [firstSeen, List.filter_cons, List.filter_filter]
    by_cases hak : a = k
    · subst hak
      by_cases hbk : b = a
      · subst hbk; simp
      · simp [pa, List.indexOf_cons_self, List.indexOf_cons_ne _ (Ne.symm hbk)]
    · by_cases hbk : b = k
      · subst hbk
        simp [pb, List.indexOf_cons_self, List.indexOf_cons_ne _ (Ne.symm hak)]
      · have ha2 : a ∈ ks := by
          rcases List.mem_cons.1 ha with h | h
          · exact absurd h hak
          · exact h
        have hb2 : b ∈ ks := by
          rcases List.mem_cons.1 hb with h | h
          · exact absurd h hbk
          · exact h
        have key := ih (fun j => p j && decide (j ≠ k)) a b (by simp [pa, hak])
          (by simp [pb, hbk]) ha2 hb2
        rw [List.indexOf_cons_ne _ (Ne.symm hak), List.indexOf_cons_ne _ (Ne.symm hbk)]
        by_cases pk : p k = true
        · simp only [pk, if_true, List.indexOf_cons_ne _ (Ne.symm hak),
            List.indexOf_cons_ne _ (Ne.symm hbk), Nat.succ_lt_succ_iff]
          exact key
        · simp only [pk, Bool.false_eq_true, if_false, Nat.succ_lt_succ_iff]
          exact key

theorem pairwise_of_indexOf_lt {R : String → String → Prop} (l : List String)
    (h : l.Pairwise R) (a b : String) (hb : b ∈ l) (hlt : l.indexOf a < l.indexOf b) :
    R a b := by
  induction l with
  | nil => simp at hb
  | cons c t ih =>
    rw [List.pairwise_cons] at h
    by_cases hac : a = c
    · subst hac
      by_cases hba : b = a
      · subst hba; simp at hlt
      · rcases List.mem_cons.1 hb with e | e
        · exact absurd e hba
        · exact h.1 b e
    · rw [List.indexOf_cons_ne _ (Ne.symm hac)] at hlt
      by_cases hbc : b = c
      · subst hbc; simp at hlt
      · rw [List.indexOf_cons_ne _ (Ne.symm hbc)] at hlt
        rcases List.mem_cons.1 hb with e | e
        · exact absurd e hbc
        · exact ih h.2 e (Nat.lt_of_succ_lt_succ hlt)

theorem objectKeys_order (pd : ProcessedData) (keys : List String)
    (hk : pd.map Prod.fst = firstSeen keys) (a b : String)
    (ha : a ∈ objectKeys pd) (hb : b ∈ objectKeys pd) :
    ((objectKeys pd).indexOf a < (objectKeys pd).indexOf b ↔ labelBefore keys a b) := by
  have hnd : (pd.map Prod.fst).Nodup := by rw [hk]; exact nodup_firstSeen _
  have hsorted := indexKeys_sorted pd hnd
  have hidx : ∀ j, j ∈ ((indexKeys pd).insertionSort (fun a b => a.1 ≤ b.1)).map (fun p => p.2) ↔
      j ∈ pd.map Prod.fst ∧ (arrayIndex j).isSome = true := by
    intro j
    have hp : (((indexKeys pd).insertionSort (fun a b => a.1 ≤ b.1)).map Prod.snd).Perm
        ((indexKeys pd).map Prod.snd) := (List.perm_insertionSort _ _).map _
    rw [show (fun (p : Nat × String) => p.2) = Prod.snd from rfl, hp.mem_iff,
      indexKeys_map_snd, List.mem_filter]
  have hstr : ∀ j, j ∈ stringKeys pd ↔ j ∈ pd.map Prod.fst ∧ (arrayIndex j).isNone = true := by
    intro j
    rw [stringKeys_eq, List.mem_filter]
  have hmemA : a ∈ pd.map Prod.fst := (objectKeys_perm pd).mem_iff.1 ha
  have hmemB : b ∈ pd.map Prod.fst := (objectKeys_perm pd).mem_iff.1 hb
  have hkA : a ∈ keys := by rw [hk, mem_firstSeen] at hmemA; exact hmemA
  have hkB : b ∈ keys := by rw [hk, mem_firstSeen] at hmemB; exact hmemB
  unfold objectKeys at ha hb ⊢
  unfold labelBefore
  cases hai : arrayIndex a with
  | some m =>
    have haI : a ∈ ((indexKeys pd).insertionSort (fun a b => a.1 ≤ b.1)).map (fun p => p.2) :=
      (hidx a).2 ⟨hmemA, by rw [hai]; rfl⟩
    cases hbi : arrayIndex b with
    | some n =>
      have hbI : b ∈ ((indexKeys pd).insertionSort (fun a b => a.1 ≤ b.1)).map (fun p => p.2) :=
        (hidx b).2 ⟨hmemB, by rw [hbi]; rfl⟩
      rw [List.indexOf_append_of_mem haI, List.indexOf_append_of_mem hbI]
      simp only
      constructor
      · intro hlt
        obtain ⟨m2, n2, h1, h2, h3⟩ := pairwise_of_indexOf_lt _ hsorted a b hbI hlt
        rw [hai] at h1
        rw [hbi] at h2
        cases h1
        cases h2
        exact h3
      · intro hmn
        by_contra hnot
        rcases Nat.lt_or_eq_of_le (Nat.le_of_not_lt hnot) with hlt | heq
        · obtain ⟨m2, n2, h1, h2, h3⟩ := pairwise_of_indexOf_lt _ hsorted b a haI hlt
          rw [hbi] at h1
          rw [hai] at h2
          cases h1
          cases h2
          omega
        · have : b = a := List.indexOf_inj hbI haI |>.1 heq
          subst this
          rw [hai] at hbi
          cases hbi
          omega
    | none =>
      have hbS : b ∈ stringKeys pd := (hstr b).2 ⟨hmemB, by rw [hbi]; rfl⟩
      have hbI : b ∉ ((indexKeys pd).insertionSort (fun a b => a.1 ≤ b.1)).map (fun p => p.2) := by
        intro hc
        have := ((hidx b).1 hc).2
        rw [hbi] at this
        simp at this
      rw [List.indexOf_append_of_mem haI, List.indexOf_append_of_not_mem hbI]
      simp only [iff_true]
      have := List.indexOf_lt_length.2 haI
      omega
  | none =>
    have haS : a ∈ stringKeys pd := (hstr a).2 ⟨hmemA, by rw [hai]; rfl⟩
    have haI : a ∉ ((indexKeys pd).insertionSort (fun a b => a.1 ≤ b.1)).map (fun p => p.2) := by
      intro hc
      have := ((hidx a).1 hc).2
      rw [hai] at this
      simp at this
    cases hbi : arrayIndex b with
    | some n =>
      have hbI : b ∈ ((indexKeys pd).insertionSort (fun a b => a.1 ≤ b.1)).map (fun p => p.2) :=
        (hidx b).2 ⟨hmemB, by rw [hbi]; rfl⟩
      rw [List.indexOf_append_of_not_mem haI, List.indexOf_append_of_mem hbI]
      simp only [iff_false]
      have := List.indexOf_lt_length.2 hbI
      omega
    | none =>
      have hbI : b ∉ ((indexKeys pd).insertionSort (fun a b => a.1 ≤ b.1)).map (fun p => p.2) := by
        intro hc
        have := ((hidx b).1 hc).2
        rw [hbi] at this
        simp at this
      rw [List.indexOf_append_of_not_mem haI, List.indexOf_append_of_not_mem hbI]
      simp only [Nat.add_lt_add_iff_left]
      rw [stringKeys_eq, hk]
      exact indexOf_firstSeen_filter keys (fun k => (arrayIndex k).isNone) a b
        (by simp [hai]) (by simp [hbi]) hkA hkB

/-! ## Claims on the aggregation -/

/-- C1: the aggregation does not produce labels for every non-empty row sequence. On the
single row whose group cell is the text `constructor`, the read `processedData[xValue]`
finds the inherited function, calls its missing `push`, and the loop throws a `TypeError`,
so no label and no value is produced for that key. -/
theorem prepareChartData_constructor_throws :
    prepareChartData constructorRows "region" "sales" = Except.error JSError.typeError := by
  rfl

/-- C2, as stated, fails: for rows with group keys `b`, `2`, `1` in this order the labels
are `1`, `2`, `b`, not the first-seen order `b`, `2`, `1`. -/
theorem labels_not_first_seen :
    prepareChartData mixedKeyRows "k" "v"
        = Except.ok { labels := ["1", "2", "b"], values := [3, 2, 1] } ∧
      mixedKeyRows.map (groupKey "k") = ["b", "2", "1"] := by
  constructor
  · with_unfolding_all rfl
  · rfl

/-- C2, amended: whenever the aggregation returns, label `a` precedes label `b` in the
output exactly when both are array-index keys and `a` is the smaller number, or `a` is an
array-index key and `b` is not, or neither is and the first row with key `a` comes before
the first row with key `b`; and the values are index-aligned with the labels, each being
the average of its label's group. -/
theorem labels_index_keys_then_first_seen (data : List Row) (xAxis yAxis : String)
    (res : SeriesResult) (h : prepareChartData data xAxis yAxis = Except.ok res) :
    (∀ a ∈ res.labels, ∀ b ∈ res.labels,
        (res.labels.indexOf a < res.labels.indexOf b ↔
          labelBefore (data.map (groupKey xAxis)) a b)) ∧
      res.values = res.labels.map (fun l => average (groupContributions data xAxis yAxis l)) := by
  obtain ⟨pd, hloop, hl, hv⟩ := prepareChartData_ok data xAxis yAxis res h
  refine ⟨?_, hv⟩
  intro a ha b hb
  rw [hl] at ha hb ⊢
  exact objectKeys_order pd _ (forEachRow_keys xAxis yAxis data pd hloop) a b ha hb

/-- Witness for C2 amended, on the rows with keys `b`, `2`, `1`. -/
theorem labels_index_keys_then_first_seen_witness :
    prepareChartData mixedKeyRows "k" "v"
        = Except.ok { labels := ["1", "2", "b"], values := [3, 2, 1] } ∧
      ((∀ a ∈ ["1", "2", "b"], ∀ b ∈ ["1", "2", "b"],
          ((["1", "2", "b"] : List String).indexOf a < (["1", "2", "b"] : List String).indexOf b ↔
            labelBefore (mixedKeyRows.map (groupKey "k")) a b)) ∧
        ([3, 2, 1] : List ℚ) = (["1", "2", "b"] : List String).map
          (fun l => average (groupContributions mixedKeyRows "k" "v" l))) :=
  ⟨by with_unfolding_all rfl,
   labels_index_keys_then_first_seen mixedKeyRows "k" "v"
     { labels := ["1", "2", "b"], values := [3, 2, 1] } (by with_unfolding_all rfl)⟩

/-- C3: whenever the aggregation returns, the value at each label's index is the sum of
the contributions of all rows whose group key is that label (the parsed value-column
number, `0` when it does not parse) divided by the number of those rows, unparseable ones
included; and that number of rows is never zero. -/
theorem values_are_group_means (data : List Row) (xAxis yAxis : String)
    (res : SeriesResult) (h : prepareChartData data xAxis yAxis = Except.ok res) :
    res.values = res.labels.map (fun l =>
        (groupContributions data xAxis yAxis l).sum /
          ((data.filter (fun row => groupKey xAxis row = l)).length : ℚ)) ∧
      ∀ l ∈ res.labels, (data.filter (fun row => groupKey xAxis row = l)).length ≠ 0 := by
  constructor
  · exact values_mean_aux data xAxis yAxis res h
  · intro l hmem
    obtain ⟨row, hrow, hkey⟩ := ((prepareChartData_labels data xAxis yAxis res h).2.2 l).1 hmem
    have hne := groupContributions_ne_nil data xAxis yAxis row hrow
    rw [hkey] at hne
    intro hz
    apply hne
    unfold groupContributions
    rw [List.length_eq_zero] at hz
    rw [hz]
    rfl

/-- Witness for C3: the sales rows give labels `East`, `West` and values `15`, `5`. -/
theorem values_are_group_means_witness :
    prepareChartData salesRows "region" "sales"
        = Except.ok { labels := ["East", "West"], values := [15, 5] } ∧
      (([15, 5] : List ℚ) = (["East", "West"] : List String).map (fun l =>
          (groupContributions salesRows "region" "sales" l).sum /
            ((salesRows.filter (fun row => groupKey "region" row = l)).length : ℚ)) ∧
        ∀ l ∈ (["East", "West"] : List String),
          (salesRows.filter (fun row => groupKey "region" row = l)).length ≠ 0) :=
  ⟨by with_unfolding_all rfl,
   values_are_group_means salesRows "region" "sales"
     { labels := ["East", "West"], values := [15, 5] } (by with_unfolding_all rfl)⟩

/-! ## Statistics -/

theorem reduceOption_map_parse (data : List Row) (yAxis : String) :
    (data.map (fun row => parseFloat (row.get yAxis))).reduceOption = parsedValues data yAxis := by
  unfold parsedValues List.reduceOption
  rw [List.filterMap_map]
  rfl

theorem calculateStats_eq (file : FileData) (yAxis : String) (hy : yAxis ≠ "") :
    calculateStats (some file) yAxis =
      match parsedValues file.data yAxis with
      | [] => none
      | v :: vs =>
        some { sum := (v :: vs).foldl (fun a b => a + b) 0,
               avg := (v :: vs).foldl (fun a b => a + b) 0 / ((v :: vs).length : ℚ),
               min := vs.foldl (fun a b => Min.min a b) v,
               max := vs.foldl (fun a b => Max.max a b) v,
               median := ((v :: vs).insertionSort (fun a b => a ≤ b)).get? ((v :: vs).length / 2),
               count := (v :: vs).length } := by
  unfold calculateStats
  simp only [hy, if_false, reduceOption_map_parse]
  cases parsedValues file.data yAxis <;> rfl

theorem parsedValues_eq_nil (data : List Row) (yAxis : String) :
    parsedValues data yAxis = [] ↔ ∀ row ∈ data, parseFloat (row.get yAxis) = none := by
  unfold parsedValues
  rw [List.filterMap_eq_nil_iff]

theorem parsedValues_length (data : List Row) (yAxis : String) :
    (parsedValues data yAxis).length =
      (data.filter (fun row => (parseFloat (row.get yAxis)).isSome)).length := by
  unfold parsedValues
  induction data with
  | nil => rfl
  | cons row rest ih =>
    cases h : parseFloat (row.get yAxis) <;> simp [List.filterMap_cons, List.filter_cons, h, ih]

theorem foldl_min_spec (vs : List ℚ) (v : ℚ) :
    vs.foldl (fun a b => Min.min a b) v ∈ v :: vs ∧
      ∀ x ∈ v :: vs, vs.foldl (fun a b => Min.min a b) v ≤ x := by
  induction vs generalizing v with
  | nil => simp
  | cons w ws ih =>
    obtain ⟨hmem, hle⟩ := ih (Min.min v w)
    simp only [List.foldl_cons]
    constructor
    · rcases List.mem_cons.1 hmem with h | h
      · rw [h]
        rcases min_choice v w with e | e <;> simp [e]
      · simp [h]
    · intro x hx
      have h1 := hle (Min.min v w) (List.mem_cons_self _ _)
      rcases List.mem_cons.1 hx with h | h
      · rw [h]; exact le_trans h1 (min_le_left _ _)
      · rcases List.mem_cons.1 h with h2 | h2
        · rw [h2]; exact le_trans h1 (min_le_right _ _)
        · exact hle x (List.mem_cons_of_mem _ h2)

theorem foldl_max_spec (vs : List ℚ) (v : ℚ) :
    vs.foldl (fun a b => Max.max a b) v ∈ v :: vs ∧
      ∀ x ∈ v :: vs, x ≤ vs.foldl (fun a b => Max.max a b) v := by
  induction vs generalizing v with
  | nil => simp
  | cons w ws ih =>
    obtain ⟨hmem, hle⟩ := ih (Max.max v w)
    simp only [List.foldl_cons]
    constructor
    · rcases List.mem_cons.1 hmem with h | h
      · rw [h]
        rcases max_choice v w with e | e <;> simp [e]
      · simp [h]
    · intro x hx
      have h1 := hle (Max.max v w) (List.mem_cons_self _ _)
      rcases List.mem_cons.1 hx with h | h
      · rw [h]; exact le_trans (le_max_left _ _) h1
      · rcases List.mem_cons.1 h with h2 | h2
        · rw [h2]; exact le_trans (le_max_right _ _) h1
        · exact hle x (List.mem_cons_of_mem _ h2)

theorem sorted_get_half (vals sorted : List ℚ) (hne : vals ≠ [])
    (hp : sorted.Perm vals) (hs : sorted.Sorted (fun a b => a ≤ b)) :
    sorted = vals.insertionSort (fun a b => a ≤ b) ∧
      ∃ m, sorted.get? (vals.length / 2) = some m ∧ m ∈ vals := by
  have hs2 : (vals.insertionSort (fun a b => a ≤ b)).Sorted (fun a b => a ≤ b) :=
    List.sorted_insertionSort _ _
  have hp2 : (vals.insertionSort (fun a b => a ≤ b)).Perm vals := List.perm_insertionSort _ _
  have heq : sorted = vals.insertionSort (fun a b => a ≤ b) :=
    List.eq_of_perm_of_sorted (hp.trans hp2.symm) hs hs2
  refine ⟨heq, ?_⟩
  have hlen : sorted.length = vals.length := hp.length_eq
  have hpos : 0 < vals.length := List.length_pos.2 hne
  have hlt : vals.length / 2 < sorted.length := by
    rw [hlen]; exact Nat.div_lt_self hpos (by norm_num)
  refine ⟨sorted.get ⟨vals.length / 2, hlt⟩, List.get?_eq_get hlt, ?_⟩
  exact hp.mem_iff.1 (List.get_mem _ _ _)

/-- C4: with a dataset selected and a non-empty value column, `calculateStats` returns
`null` exactly when no row's value-column cell parses to a number, and every Statistics
object it returns has a count of at least 1. -/
theorem calculateStats_null_iff (file : FileData) (yAxis : String) (hy : yAxis ≠ "") :
    (calculateStats (some file) yAxis = none ↔
        ∀ row ∈ file.data, parseFloat (row.get yAxis) = none) ∧
      ∀ s, calculateStats (some file) yAxis = some s → 1 ≤ s.count := by
  rw [calculateStats_eq file yAxis hy, ← parsedValues_eq_nil]
  cases parsedValues file.data yAxis with
  | nil => simp
  | cons v vs =>
    refine ⟨by simp, ?_⟩
    intro s hs
    simp only [Option.some.injEq] at hs
    subst hs
    simp

/-- Witness for C4: the sales rows and the column `sales`. -/
theorem calculateStats_null_iff_witness :
    "sales" ≠ "" ∧
      ((calculateStats (some salesFile) "sales" = none ↔
          ∀ row ∈ salesFile.data, parseFloat (row.get "sales") = none) ∧
        ∀ s, calculateStats (some salesFile) "sales" = some s → 1 ≤ s.count) :=
  ⟨by decide, calculateStats_null_iff salesFile "sales" (by decide)⟩

/-- C5: when at least one value-column cell parses, `calculateStats` returns an object
whose count is the number of parseable cells of all rows, whose sum is their total, whose
avg is sum / count (so sum = count * avg), and whose min and max are their least and
greatest elements. -/
theorem calculateStats_summary (file : FileData) (yAxis : String) (hy : yAxis ≠ "")
    (hex : ∃ row ∈ file.data, parseFloat (row.get yAxis) ≠ none) :
    ∃ s, calculateStats (some file) yAxis = some s ∧
      s.count = (file.data.filter (fun row => (parseFloat (row.get yAxis)).isSome)).length ∧
      s.count = (parsedValues file.data yAxis).length ∧
      s.sum = (parsedValues file.data yAxis).sum ∧
      s.avg = s.sum / (s.count : ℚ) ∧
      s.sum = (s.count : ℚ) * s.avg ∧
      s.min ∈ parsedValues file.data yAxis ∧
      (∀ v ∈ parsedValues file.data yAxis, s.min ≤ v) ∧
      s.max ∈ parsedValues file.data yAxis ∧
      (∀ v ∈ parsedValues file.data yAxis, v ≤ s.max) := by
  have hne : parsedValues file.data yAxis ≠ [] := by
    intro hnil
    obtain ⟨row, hrow, hp⟩ := hex
    exact hp ((parsedValues_eq_nil _ _).1 hnil row hrow)
  rw [calculateStats_eq file yAxis hy, ← parsedValues_length]
  cases hv : parsedValues file.data yAxis with
  | nil => exact absurd hv hne
  | cons v vs =>
    have hlen : (((v :: vs).length : Nat) : ℚ) ≠ 0 := by
      simp only [List.length_cons, Nat.cast_add, Nat.cast_one]
      positivity
    refine ⟨_, rfl, rfl, rfl, ?_, rfl, ?_, (foldl_min_spec vs v).1, (foldl_min_spec vs v).2,
      (foldl_max_spec vs v).1, (foldl_max_spec vs v).2⟩
    · simp only [foldl_add_eq_sum, zero_add]
    · simp only
      field_simp

/-- Witness for C5: the sales cells 10, 20, 5 give count 3, sum 35, avg 35/3, min 5,
max 20. -/
theorem calculateStats_summary_witness :
    calculateStats (some salesFile) "sales"
        = some { sum := 35, avg := 35 / 3, min := 5, max := 20, median := some 10, count := 3 } ∧
      ∃ s, calculateStats (some salesFile) "sales" = some s ∧
        s.count = (salesFile.data.filter (fun row => (parseFloat (row.get "sales")).isSome)).length ∧
        s.count = (parsedValues salesFile.data "sales").length ∧
        s.sum = (parsedValues salesFile.data "sales").sum ∧
        s.avg = s.sum / (s.count : ℚ) ∧
        s.sum = (s.count : ℚ) * s.avg ∧
        s.min ∈ parsedValues salesFile.data "sales" ∧
        (∀ v ∈ parsedValues salesFile.data "sales", s.min ≤ v) ∧
        s.max ∈ parsedValues salesFile.data "sales" ∧
        (∀ v ∈ parsedValues salesFile.data "sales", v ≤ s.max) :=
  ⟨by with_unfolding_all rfl,
   calculateStats_summary salesFile "sales" (by decide)
     ⟨[("region", Cell.str "East"), ("sales", Cell.str "10")], by simp [salesFile, salesRows],
      by with_unfolding_all decide⟩⟩

/-- C6: when at least one value-column cell parses, the median returned by
`calculateStats` is the element at 0-based index floor(count / 2) of the ascending
arrangement of the parseable values. -/
theorem calculateStats_median (file : FileData) (yAxis : String) (hy : yAxis ≠ "")
    (hex : ∃ row ∈ file.data, parseFloat (row.get yAxis) ≠ none) :
    ∃ s m, calculateStats (some file) yAxis = some s ∧ s.median = some m ∧
      ∀ sorted : List ℚ, sorted.Perm (parsedValues file.data yAxis) →
        sorted.Sorted (fun a b => a ≤ b) → sorted.get? (s.count / 2) = some m := by
  have hne : parsedValues file.data yAxis ≠ [] := by
    intro hnil
    obtain ⟨row, hrow, hp⟩ := hex
    exact hp ((parsedValues_eq_nil _ _).1 hnil row hrow)
  rw [calculateStats_eq file yAxis hy]
  cases hv : parsedValues file.data yAxis with
  | nil => exact absurd hv hne
  | cons v vs =>
    obtain ⟨_, m, hm, _⟩ := sorted_get_half (v :: vs) _ (by simp)
      (List.perm_insertionSort (fun a b => a ≤ b) (v :: vs))
      (List.sorted_insertionSort (fun a b => a ≤ b) (v :: vs))
    refine ⟨_, m, rfl, hm, ?_⟩
    intro sorted hp hs
    obtain ⟨heq, _⟩ := sorted_get_half (v :: vs) sorted (by simp) hp hs
    rw [heq]
    exact hm

/-- Witness for C6: the values 1, 2, 3, 4 give the median 3, the upper of the two middle
elements. -/
theorem calculateStats_median_witness :
    calculateStats (some fourValuesFile) "v"
        = some { sum := 10, avg := 5 / 2, min := 1, max := 4, median := some 3, count := 4 } ∧
      ∃ s m, calculateStats (some fourValuesFile) "v" = some s ∧ s.median = some m ∧
        ∀ sorted : List ℚ, sorted.Perm (parsedValues fourValuesFile.data "v") →
          sorted.Sorted (fun a b => a ≤ b) → sorted.get? (s.count / 2) = some m :=
  ⟨by with_unfolding_all rfl,
   calculateStats_median fourValuesFile "v" (by decide)
     ⟨[("v", Cell.num 1)], by simp [fourValuesFile], by simp [Row.get, parseFloat]⟩⟩

/-- C7: every Statistics object returned by `calculateStats` has a median, and
min <= median <= max. -/
theorem calculateStats_min_median_max (selectedData : Option FileData) (yAxis : String)
    (s : Statistics) (h : calculateStats selectedData yAxis = some s) :
    ∃ m, s.median = some m ∧ s.min ≤ m ∧ m ≤ s.max := by
  cases selectedData with
  | none => simp [calculateStats] at h
  | some file =>
    by_cases hy : yAxis = ""
    · simp [calculateStats, hy] at h
    · rw [calculateStats_eq file yAxis hy] at h
      cases hv : parsedValues file.data yAxis with
      | nil => rw [hv] at h; simp at h
      | cons v vs =>
        rw [hv] at h
        simp only [Option.some.injEq] at h
        subst h
        obtain ⟨_, m, hm, hmem⟩ := sorted_get_half (v :: vs) _ (by simp)
          (List.perm_insertionSort (fun a b => a ≤ b) (v :: vs))
          (List.sorted_insertionSort (fun a b => a ≤ b) (v :: vs))
        exact ⟨m, hm, (foldl_min_spec vs v).2 m hmem, (foldl_max_spec vs v).2 m hmem⟩

/-- Witness for C7: the sales rows, with min 5, median 10 and max 20. -/
theorem calculateStats_min_median_max_witness :
    calculateStats (some salesFile) "sales"
        = some { sum := 35, avg := 35 / 3, min := 5, max := 20, median := some 10, count := 3 } ∧
      ∃ m, (some (10 : ℚ)) = some m ∧ (5 : ℚ) ≤ m ∧ m ≤ (20 : ℚ) :=
  ⟨by with_unfolding_all rfl,
   calculateStats_min_median_max (some salesFile) "sales"
     { sum := 35, avg := 35 / 3, min := 5, max := 20, median := some 10, count := 3 }
     (by with_unfolding_all rfl)⟩

/-! ## Statistics against aggregation -/

theorem contribution_of_not_parsed (yAxis : String) (row : Row)
    (h : parseFloat (row.get yAxis) = none) : contribution yAxis row = 0 := by
  unfold contribution
  rw [h]

/-- C8: a row whose value-column cell does not parse is dropped by `calculateStats` (its
count is the number of parseable cells) and kept by the aggregation: its group key is a
label, it contributes `0` to that group, and the value of the group is the sum of the
contributions divided by the number of all rows of the group, this row included. -/
theorem non_numeric_dropped_by_stats_kept_by_aggregation (file : FileData)
    (xAxis yAxis : String) (res : SeriesResult) (hy : yAxis ≠ "")
    (h : prepareChartData file.data xAxis yAxis = Except.ok res) :
    (∀ s, calculateStats (some file) yAxis = some s →
        s.count = (file.data.filter (fun row => (parseFloat (row.get yAxis)).isSome)).length) ∧
      ∀ row ∈ file.data, parseFloat (row.get yAxis) = none →
        contribution yAxis row = 0 ∧
        row ∈ file.data.filter (fun r => groupKey xAxis r = groupKey xAxis row) ∧
        ∃ i, res.labels.get? i = some (groupKey xAxis row) ∧
          res.values.get? i = some
            ((groupContributions file.data xAxis yAxis (groupKey xAxis row)).sum /
              ((file.data.filter (fun r => groupKey xAxis r = groupKey xAxis row)).length : ℚ)) := by
  constructor
  · intro s hs
    rw [calculateStats_eq file yAxis hy] at hs
    rw [← parsedValues_length]
    cases hv : parsedValues file.data yAxis with
    | nil => rw [hv] at hs; simp at hs
    | cons v vs =>
      rw [hv] at hs
      simp only [Option.some.injEq] at hs
      subst hs
      rfl
  · intro row hrow hparse
    refine ⟨contribution_of_not_parsed yAxis row hparse, by simp [List.mem_filter, hrow], ?_⟩
    have hmem : groupKey xAxis row ∈ res.labels :=
      ((prepareChartData_labels file.data xAxis yAxis res h).2.2 _).2 ⟨row, hrow, rfl⟩
    obtain ⟨i, hi, hget⟩ := List.getElem_of_mem hmem
    refine ⟨i, ?_, ?_⟩
    · rw [List.get?_eq_getElem?, List.getElem?_eq_getElem hi, hget]
    · rw [(values_mean_aux file.data xAxis yAxis res h), List.get?_eq_getElem?,
        List.getElem?_map, List.getElem?_eq_getElem hi, hget]
      rfl

/-- Witness for C8: the value cells `N/A`, `4`, `6` in one group give statistics with
count 2 and avg 5, and the aggregated value (0 + 4 + 6) / 3. -/
theorem non_numeric_dropped_by_stats_kept_by_aggregation_witness :
    calculateStats (some partlyNumericFile) "v"
        = some { sum := 10, avg := 5, min := 4, max := 6, median := some 6, count := 2 } ∧
      prepareChartData partlyNumericFile.data "g" "v"
        = Except.ok { labels := ["a"], values := [(0 + 4 + 6) / 3] } ∧
      ((∀ s, calculateStats (some partlyNumericFile) "v" = some s →
          s.count =
            (partlyNumericFile.data.filter (fun row => (parseFloat (row.get "v")).isSome)).length) ∧
        ∀ row ∈ partlyNumericFile.data, parseFloat (row.get "v") = none →
          contribution "v" row = 0 ∧
          row ∈ partlyNumericFile.data.filter (fun r => groupKey "g" r = groupKey "g" row) ∧
          ∃ i, (["a"] : List String).get? i = some (groupKey "g" row) ∧
            ([(0 + 4 + 6) / 3] : List ℚ).get? i = some
              ((groupContributions partlyNumericFile.data "g" "v" (groupKey "g" row)).sum /
                ((partlyNumericFile.data.filter
                  (fun r => groupKey "g" r = groupKey "g" row)).length : ℚ))) :=
  ⟨by with_unfolding_all rfl, by with_unfolding_all rfl,
   non_numeric_dropped_by_stats_kept_by_aggregation partlyNumericFile "g" "v"
     { labels := ["a"], values := [(0 + 4 + 6) / 3] } (by decide) (by with_unfolding_all rfl)⟩

/-! ## Column selection -/

theorem getProperty_not_inherited (pd : ProcessedData) (key : String)
    (h : key ∉ objectPrototypeKeys) : getProperty pd key ≠ PropertyValue.inherited := by
  unfold getProperty
  cases ownProperty pd key with
  | none => simp [h]
  | some v => simp

theorem forEachRow_total (xAxis yAxis : String) (data : List Row)
    (h : ∀ row ∈ data, groupKey xAxis row ∉ objectPrototypeKeys) :
    ∀ pd, ∃ pd2, forEachRow xAxis yAxis data pd = Except.ok pd2 := by
  induction data with
  | nil => intro pd; exact ⟨pd, rfl⟩
  | cons row rest ih =>
    intro pd
    have hk := h row (List.mem_cons_self _ _)
    have hrest := ih (fun r hr => h r (List.mem_cons_of_mem _ hr))
    have hstep : ∃ pd1, processRow xAxis yAxis pd row = Except.ok pd1 := by
      have hni := getProperty_not_inherited pd (groupKey xAxis row) hk
      unfold processRow
      change ∃ pd1, (match getProperty pd (groupKey xAxis row) with
        | PropertyValue.array _ =>
          Except.ok (pushOwn pd (groupKey xAxis row) (parseFloatOrZero (row.get yAxis)))
        | PropertyValue.inherited => Except.error JSError.typeError
        | PropertyValue.undefined =>
          Except.ok (pd ++ [(groupKey xAxis row, [parseFloatOrZero (row.get yAxis)])])) =
        Except.ok pd1
      cases hg : getProperty pd (groupKey xAxis row) with
      | array v => exact ⟨_, rfl⟩
      | inherited => exact absurd hg hni
      | undefined => exact ⟨_, rfl⟩
    obtain ⟨pd1, h1⟩ := hstep
    obtain ⟨pd2, h2⟩ := hrest pd1
    exact ⟨pd2, by simp only [forEachRow, h1, h2]⟩

theorem prepareChartData_total (data : List Row) (xAxis yAxis : String)
    (h : ∀ row ∈ data, groupKey xAxis row ∉ objectPrototypeKeys) :
    ∃ res, prepareChartData data xAxis yAxis = Except.ok res := by
  obtain ⟨pd, hloop⟩ := forEachRow_total xAxis yAxis data h []
  have hown : ∀ l ∈ objectKeys pd,
      ownProperty pd l = some (groupContributions data xAxis yAxis l) := by
    intro l hl
    have hl2 : l ∈ pd.map Prod.fst := (objectKeys_perm pd).mem_iff.1 hl
    rw [forEachRow_keys xAxis yAxis data pd hloop, mem_firstSeen] at hl2
    rw [forEachRow_own xAxis yAxis data pd hloop, if_pos hl2]
  have hv := labelValues_own pd (groupContributions data xAxis yAxis) (objectKeys pd) hown
  refine ⟨{ labels := objectKeys pd,
            values := (objectKeys pd).map
              (fun l => average (groupContributions data xAxis yAxis l)) }, ?_⟩
  simp only [prepareChartData, hloop, hv]

theorem eq_singleton_of_nodup (l : List String) (c : String) (hnd : l.Nodup)
    (h : ∀ a, a ∈ l ↔ a = c) : l = [c] := by
  have hp : l.Perm [c] :=
    (List.perm_ext_iff_of_nodup hnd (List.nodup_singleton c)).2 (by simpa using h)
  exact List.perm_singleton.1 hp

theorem processRow_error (xAxis yAxis : String) (pd : ProcessedData) (row : Row) (e : JSError)
    (h : processRow xAxis yAxis pd row = Except.error e) : e = JSError.typeError := by
  unfold processRow at h
  change (match getProperty pd (groupKey xAxis row) with
    | PropertyValue.array _ =>
      Except.ok (pushOwn pd (groupKey xAxis row) (parseFloatOrZero (row.get yAxis)))
    | PropertyValue.inherited => Except.error JSError.typeError
    | PropertyValue.undefined =>
      Except.ok (pd ++ [(groupKey xAxis row, [parseFloatOrZero (row.get yAxis)])])) =
    Except.error e at h
  cases hg : getProperty pd (groupKey xAxis row) with
  | array v => rw [hg] at h; cases h
  | inherited => rw [hg] at h; cases h; rfl
  | undefined => rw [hg] at h; cases h

theorem forEachRow_error (xAxis yAxis : String) (data : List Row) (e : JSError) :
    ∀ pd : ProcessedData, forEachRow xAxis yAxis data pd = Except.error e →
      e = JSError.typeError := by
  induction data with
  | nil => intro pd h; cases h
  | cons row rest ih =>
    intro pd h
    simp only [forEachRow] at h
    cases hstep : processRow xAxis yAxis pd row with
    | error e2 =>
      rw [hstep] at h
      cases h
      exact processRow_error xAxis yAxis pd row e hstep
    | ok pd1 =>
      rw [hstep] at h
      exact ih pd1 h

theorem labelValues_error (pd : ProcessedData) (e : JSError) :
    ∀ labels : List String, labelValues pd labels = Except.error e → e = JSError.typeError := by
  intro labels
  induction labels with
  | nil => intro h; cases h
  | cons l rest ih =>
    intro h
    simp only [labelValues] at h
    cases hg : getProperty pd l with
    | array v =>
      rw [hg] at h
      cases hr : labelValues pd rest with
      | error e2 =>
        rw [hr] at h
        cases h
        exact ih hr
      | ok vs => rw [hr] at h; cases h
    | inherited => rw [hg] at h; cases h; rfl
    | undefined => rw [hg] at h; cases h; rfl

theorem prepareChartData_error (data : List Row) (xAxis yAxis : String) (e : JSError)
    (h : prepareChartData data xAxis yAxis = Except.error e) : e = JSError.typeError := by
  unfold prepareChartData at h
  cases hloop : forEachRow xAxis yAxis data [] with
  | error e2 =>
    rw [hloop] at h
    cases h
    exact forEachRow_error xAxis yAxis data e [] hloop
  | ok pd =>
    rw [hloop] at h
    simp only at h
    cases hv : labelValues pd (objectKeys pd) with
    | error e2 =>
      rw [hv] at h
      cases h
      exact labelValues_error pd e _ hv
    | ok vs => rw [hv] at h; cases h

/-- C9, as stated, fails: `country` is not a column of the sales file, and with that group
column `generateChart`, run as in the component (no canvas mounted), is not turned away
before any work with an `InvalidColumnSelection`: it passes the only guard, that of line
42, and ends at line 51 with the `TypeError` of the missing canvas, exactly as it does
with the member column `region`. -/
theorem generateChart_unknown_column_not_validated :
    "country" ∉ salesFile.headers ∧ "region" ∈ salesFile.headers ∧
      generateChart (some salesFile) "country" "sales" "bar" none
        = Except.error JSError.typeError ∧
      generateChart (some salesFile) "region" "sales" "bar" none
        = Except.error JSError.typeError ∧
      generateChart (some salesFile) "country" "sales" "bar" none ≠ Except.ok none ∧
      generateChart (some salesFile) "country" "sales" "bar" none
        ≠ Except.error (JSError.other "InvalidColumnSelection") := by
  have h1 : generateChart (some salesFile) "country" "sales" "bar" none
      = Except.error JSError.typeError := rfl
  refine ⟨by decide, by decide, h1, rfl, ?_, ?_⟩
  · rw [h1]
    intro h
    cases h
  · rw [h1]
    intro h
    cases h

/-- C9, amended: `generateChart` returns before doing any work exactly when no dataset is
selected or the group or value column name is empty. The column set of the dataset is
never consulted: the outcome is the same whatever the column set is, so a name outside it
is treated like a member. -/
theorem generateChart_rejects_only_empty_selection (file : FileData)
    (xAxis yAxis chartType : String) (chartRefCurrent : Option Canvas) :
    generateChart none xAxis yAxis chartType chartRefCurrent = Except.ok none ∧
      (generateChart (some file) xAxis yAxis chartType chartRefCurrent = Except.ok none ↔
        xAxis = "" ∨ yAxis = "") ∧
      (∀ headers,
        generateChart (some { file with headers := headers }) xAxis yAxis chartType
            chartRefCurrent =
          generateChart (some file) xAxis yAxis chartType chartRefCurrent) := by
  refine ⟨rfl, ?_, fun _ => rfl⟩
  · constructor
    · intro h
      by_contra hne
      unfold generateChart at h
      simp only [hne, if_false] at h
      cases chartRefCurrent with
      | none => cases h
      | some canvas =>
        simp only at h
        cases hp : prepareChartData file.data xAxis yAxis with
        | error e => rw [hp] at h; cases h
        | ok series => rw [hp] at h; simp at h
    · intro h
      unfold generateChart
      simp only [h, if_true]

theorem row_get_inherited :
    Row.get [("region", Cell.str "East")] "constructor"
        = Cell.str "function Object() \x7b [native code] \x7d" ∧
      Row.get [("region", Cell.str "East")] "__proto__" = Cell.str "[object Object]" ∧
      Row.get [("region", Cell.str "East")] "country" = Cell.undefined := by
  refine ⟨rfl, rfl, rfl⟩

/-! ## Insights -/

theorem range_message_ne (t : String) :
    "Data range spans " ++ t ++ " units" ≠ positiveSkewMessage ∧
    "Data range spans " ++ t ++ " units" ≠ negativeSkewMessage ∧
    "Data range spans " ++ t ++ " units" ≠ normalMessage := by
  refine ⟨?_, ?_, ?_⟩ <;>
  · intro h
    have h2 := congrArg String.data h
    simp [String.data_append, positiveSkewMessage, negativeSkewMessage, normalMessage] at h2

theorem count_message_ne (t : String) :
    "Analysis based on " ++ t ++ " data points" ≠ positiveSkewMessage ∧
    "Analysis based on " ++ t ++ " data points" ≠ negativeSkewMessage ∧
    "Analysis based on " ++ t ++ " data points" ≠ normalMessage := by
  refine ⟨?_, ?_, ?_⟩ <;>
  · intro h
    have h2 := congrArg String.data h
    simp [String.data_append, positiveSkewMessage, negativeSkewMessage, normalMessage] at h2

theorem not_mem_range_count (s : Statistics) (msg : String)
    (h : msg = positiveSkewMessage ∨ msg = negativeSkewMessage ∨ msg = normalMessage) :
    msg ∉ rangeInsight s ++ countInsight s := by
  intro hmem
  rw [List.mem_append] at hmem
  rcases hmem with hr | hc
  · unfold rangeInsight at hr
    split at hr
    · rw [List.mem_singleton] at hr
      have := range_message_ne (toFixed2 (s.max - s.min))
      rcases h with e | e | e
      · exact this.1 (hr ▸ e)
      · exact this.2.1 (hr ▸ e)
      · exact this.2.2 (hr ▸ e)
    · simp at hr
  · unfold countInsight at hc
    split at hc
    · rw [List.mem_singleton] at hc
      have := count_message_ne (toString s.count)
      rcases h with e | e | e
      · exact this.1 (hc ▸ e)
      · exact this.2.1 (hc ▸ e)
      · exact this.2.2 (hc ▸ e)
    · simp at hc

/-- C10: for Statistics whose average and median are both non-zero numbers,
`generateInsights` puts one distribution message first, chosen with skew = avg - median:
when |skew| > 0.1 * avg the positive-skew message if skew > 0 and the negative-skew message
otherwise, else the normally-distributed message; no other element is a distribution
message; and a negative average always gives a skew message. -/
theorem generateInsights_distribution_first (s : Statistics) (m : ℚ) (havg : s.avg ≠ 0)
    (hmed : s.median = some m) (hm : m ≠ 0) :
    ∃ rest, generateInsights (some s) =
        (if |s.avg - m| > s.avg * (1 / 10) then
          (if s.avg - m > 0 then positiveSkewMessage else negativeSkewMessage)
        else normalMessage) :: rest ∧
      positiveSkewMessage ∉ rest ∧ negativeSkewMessage ∉ rest ∧ normalMessage ∉ rest ∧
      (s.avg < 0 → |s.avg - m| > s.avg * (1 / 10)) := by
  refine ⟨rangeInsight s ++ countInsight s, ?_, not_mem_range_count s _ (Or.inl rfl),
    not_mem_range_count s _ (Or.inr (Or.inl rfl)), not_mem_range_count s _ (Or.inr (Or.inr rfl)),
    ?_⟩
  · unfold generateInsights skewInsight
    simp only [hmed, havg, hm, ne_eq, not_false_eq_true, and_self, if_true]
    by_cases hs : |s.avg - m| > s.avg * (1 / 10)
    · simp only [hs, if_true, List.append_assoc, List.singleton_append]
      rfl
    · simp only [hs, if_false, List.append_assoc, List.singleton_append]
      rfl
  · intro hneg
    have h1 : s.avg * (1 / 10) < 0 := by linarith
    exact lt_of_lt_of_le h1 (abs_nonneg _)

/-- Witness for C10: the statistics of the sales rows (avg 35/3, median 10) give the
positive-skew message first. -/
theorem generateInsights_distribution_first_witness :
    generateInsights (some { sum := 35, avg := 35 / 3, min := 5, max := 20, median := some 10,
                             count := 3 })
        = [positiveSkewMessage, "Data range spans 15.00 units",
           "Analysis based on 3 data points"] ∧
      ∃ rest, generateInsights (some { sum := 35, avg := 35 / 3, min := 5, max := 20,
                                       median := some 10, count := 3 }) =
          (if |(35 / 3 : ℚ) - 10| > (35 / 3 : ℚ) * (1 / 10) then
            (if (35 / 3 : ℚ) - 10 > 0 then positiveSkewMessage else negativeSkewMessage)
          else normalMessage) :: rest ∧
        positiveSkewMessage ∉ rest ∧ negativeSkewMessage ∉ rest ∧ normalMessage ∉ rest ∧
        ((35 / 3 : ℚ) < 0 → |(35 / 3 : ℚ) - 10| > (35 / 3 : ℚ) * (1 / 10)) :=
  ⟨by with_unfolding_all rfl,
   generateInsights_distribution_first
     { sum := 35, avg := 35 / 3, min := 5, max := 20, median := some 10, count := 3 } 10
     (by norm_num) rfl (by norm_num)⟩

/-! ## Insights on zero values -/

theorem skewInsight_sublist (s : Statistics) :
    skewInsight s = [] ∨ skewInsight s = [positiveSkewMessage] ∨
      skewInsight s = [negativeSkewMessage] ∨ skewInsight s = [normalMessage] := by
  unfold skewInsight
  cases s.median with
  | none => exact Or.inl rfl
  | some m =>
    simp only
    split
    · split
      · split
        · exact Or.inr (Or.inl rfl)
        · exact Or.inr (Or.inr (Or.inl rfl))
      · exact Or.inr (Or.inr (Or.inr rfl))
    · exact Or.inl rfl

/-- C11: the claim fails on the code for the values -10, 5, 5. Their statistics have
average 0 and median 5, so skew = -5; the guard `stats.avg && stats.median` is falsy
because the average is 0, and `generateInsights` returns the range and count messages
without the negative-skew message. -/
theorem no_skew_message_for_zero_average :
    calculateStats (some zeroAverageFile) "v" = some zeroAverageStats ∧
      zeroAverageStats.avg = 0 ∧ zeroAverageStats.median = some 5 ∧
      generateInsights (some zeroAverageStats) =
        ["Data range spans 15.00 units", "Analysis based on 3 data points"] := by
  refine ⟨?_, rfl, rfl, ?_⟩
  · with_unfolding_all rfl
  · with_unfolding_all rfl

/-- For every Statistics value whose average is 0, `generateInsights` emits no
distribution message, neither a skew message nor the normally-distributed one; its output
is the range message (if any) followed by the count message (if any). -/
theorem generateInsights_zero_average (s : Statistics) (h : s.avg = 0) :
    generateInsights (some s) = rangeInsight s ++ countInsight s ∧
      positiveSkewMessage ∉ generateInsights (some s) ∧
      negativeSkewMessage ∉ generateInsights (some s) ∧
      normalMessage ∉ generateInsights (some s) := by
  have hskew : skewInsight s = [] := by
    unfold skewInsight
    cases s.median with
    | none => rfl
    | some m => simp [h]
  have hgen : generateInsights (some s) = rangeInsight s ++ countInsight s := by
    unfold generateInsights
    simp only [hskew, List.nil_append]
  rw [hgen]
  exact ⟨rfl, not_mem_range_count s _ (Or.inl rfl),
    not_mem_range_count s _ (Or.inr (Or.inl rfl)),
    not_mem_range_count s _ (Or.inr (Or.inr rfl))⟩

/-- C12: the claim fails on the code for the values 0, 5, 10. Their statistics have min 0
and max 10, the guard `stats.max && stats.min` is falsy, and `generateInsights` returns
the distribution and count messages without the message `Data range spans 10.00 units`. -/
theorem no_range_message_for_zero_minimum :
    calculateStats (some zeroMinimumFile) "v" = some zeroMinimumStats ∧
      generateInsights (some zeroMinimumStats) =
        [normalMessage, "Analysis based on 3 data points"] ∧
      "Data range spans 10.00 units" ∉ generateInsights (some zeroMinimumStats) ∧
      toFixed2 (zeroMinimumStats.max - zeroMinimumStats.min) = "10.00" := by
  refine ⟨?_, ?_, ?_, ?_⟩
  · with_unfolding_all rfl
  · with_unfolding_all rfl
  · with_unfolding_all decide
  · with_unfolding_all rfl

/-- C13: `generateInsights` returns the empty list for absent statistics; for present
statistics its output is at most one distribution message, then at most one range message,
then at most one count message; and for statistics returned by `calculateStats` the last
element is the count message `Analysis based on N data points` with N the count. -/
theorem generateInsights_order (selectedData : Option FileData) (yAxis : String)
    (stats : Statistics) (h : calculateStats selectedData yAxis = some stats) :
    generateInsights none = [] ∧
      (∀ s : Statistics, ∃ d r c, generateInsights (some s) = d ++ r ++ c ∧
        (d = [] ∨ d = [positiveSkewMessage] ∨ d = [negativeSkewMessage] ∨ d = [normalMessage]) ∧
        (r = [] ∨ r = ["Data range spans " ++ toFixed2 (s.max - s.min) ++ " units"]) ∧
        (c = [] ∨ c = ["Analysis based on " ++ toString s.count ++ " data points"])) ∧
      (generateInsights (some stats)).getLast? =
        some ("Analysis based on " ++ toString stats.count ++ " data points") := by
  refine ⟨rfl, ?_, ?_⟩
  · intro s
    refine ⟨skewInsight s, rangeInsight s, countInsight s, rfl, skewInsight_sublist s, ?_, ?_⟩
    · unfold rangeInsight
      split
      · exact Or.inr rfl
      · exact Or.inl rfl
    · unfold countInsight
      split
      · exact Or.inr rfl
      · exact Or.inl rfl
  · have hcount : stats.count ≠ 0 := by
      cases selectedData with
      | none => simp [calculateStats] at h
      | some file =>
        by_cases hy : yAxis = ""
        · simp [calculateStats, hy] at h
        · rw [calculateStats_eq file yAxis hy] at h
          cases hv : parsedValues file.data yAxis with
          | nil => rw [hv] at h; simp at h
          | cons v vs =>
            rw [hv] at h
            simp only [Option.some.injEq] at h
            subst h
            simp
    unfold generateInsights countInsight
    simp only [hcount, ne_eq, not_false_eq_true, if_true]
    rw [List.getLast?_append]
    rfl

/-- Witness for C13: the statistics of the sales rows. -/
theorem generateInsights_order_witness :
    generateInsights (some salesStats) =
        [positiveSkewMessage, "Data range spans 15.00 units", "Analysis based on 3 data points"] ∧
      (generateInsights none = [] ∧
        (∀ s : Statistics, ∃ d r c, generateInsights (some s) = d ++ r ++ c ∧
          (d = [] ∨ d = [positiveSkewMessage] ∨ d = [negativeSkewMessage] ∨
            d = [normalMessage]) ∧
          (r = [] ∨ r = ["Data range spans " ++ toFixed2 (s.max - s.min) ++ " units"]) ∧
          (c = [] ∨ c = ["Analysis based on " ++ toString s.count ++ " data points"])) ∧
        (generateInsights (some salesStats)).getLast? =
          some ("Analysis based on " ++ toString salesStats.count ++ " data points")) :=
  ⟨by with_unfolding_all rfl,
   generateInsights_order (some salesFile) "sales" salesStats (by with_unfolding_all rfl)⟩

/-! ## Recommendations and report -/

theorem generateRecommendations_eq (a : AnalysisRecord) :
    generateRecommendations a =
      (if a.chartType = "pie" ∧ gtNumber (labelsLength a) 8 = true then [barChartMessage]
        else []) ++
      (if ltNumber (statsCount a) 10 = true then [moreDataMessage] else []) ++
      [exportMessage, moreChartsMessage] := by
  unfold generateRecommendations
  by_cases h1 : a.chartType = "pie" ∧ gtNumber (labelsLength a) 8 = true <;>
    by_cases h2 : ltNumber (statsCount a) 10 = true <;> simp [h1, h2]

theorem gtNumber_labelsLength (a : AnalysisRecord) :
    gtNumber (labelsLength a) 8 = true ↔ ∃ d, a.data = some d ∧ 8 < d.labels.length := by
  unfold gtNumber labelsLength
  cases a.data with
  | none => simp
  | some d => simp

theorem ltNumber_statsCount (a : AnalysisRecord) :
    ltNumber (statsCount a) 10 = true ↔ ∃ s, a.stats = some s ∧ s.count < 10 := by
  unfold ltNumber statsCount
  cases a.stats with
  | none => simp
  | some s => simp

/-- C14: `generateRecommendations` returns the bar-chart message exactly when the chart
type is `pie` and the series has more than 8 labels, then the collect-more-data message
exactly when statistics are present with count below 10, then the export message and the
additional-visualizations message. The result has 2 to 4 elements and the bar-chart
message is in it only for a pie chart with more than 8 labels. -/
theorem generateRecommendations_exact (a : AnalysisRecord) :
    (∃ pie low, generateRecommendations a = pie ++ low ++ [exportMessage, moreChartsMessage] ∧
        ((a.chartType = "pie" ∧ (∃ d, a.data = some d ∧ 8 < d.labels.length)) ∧
            pie = [barChartMessage] ∨
          ¬ (a.chartType = "pie" ∧ (∃ d, a.data = some d ∧ 8 < d.labels.length)) ∧ pie = []) ∧
        ((∃ s, a.stats = some s ∧ s.count < 10) ∧ low = [moreDataMessage] ∨
          ¬ (∃ s, a.stats = some s ∧ s.count < 10) ∧ low = [])) ∧
      2 ≤ (generateRecommendations a).length ∧ (generateRecommendations a).length ≤ 4 ∧
      (barChartMessage ∈ generateRecommendations a ↔
        a.chartType = "pie" ∧ ∃ d, a.data = some d ∧ 8 < d.labels.length) := by
  rw [generateRecommendations_eq]
  have hne1 : barChartMessage ≠ moreDataMessage := by decide
  have hne2 : barChartMessage ≠ exportMessage := by decide
  have hne3 : barChartMessage ≠ moreChartsMessage := by decide
  by_cases h1 : a.chartType = "pie" ∧ gtNumber (labelsLength a) 8 = true
  · have h1b : a.chartType = "pie" ∧ ∃ d, a.data = some d ∧ 8 < d.labels.length :=
      ⟨h1.1, (gtNumber_labelsLength a).1 h1.2⟩
    by_cases h2 : ltNumber (statsCount a) 10 = true
    · have h2b := (ltNumber_statsCount a).1 h2
      refine ⟨⟨[barChartMessage], [moreDataMessage], by simp [h1, h2], Or.inl ⟨h1b, rfl⟩,
        Or.inl ⟨h2b, rfl⟩⟩, by simp [h1, h2], by simp [h1, h2], ?_⟩
      simp [h1, h2, h1b]
    · have h2b : ¬ ∃ s, a.stats = some s ∧ s.count < 10 :=
        fun hc => h2 ((ltNumber_statsCount a).2 hc)
      refine ⟨⟨[barChartMessage], [], by simp [h1, h2], Or.inl ⟨h1b, rfl⟩,
        Or.inr ⟨h2b, rfl⟩⟩, by simp [h1, h2], by simp [h1, h2], ?_⟩
      simp [h1, h2, h1b]
  · have h1b : ¬ (a.chartType = "pie" ∧ ∃ d, a.data = some d ∧ 8 < d.labels.length) :=
      fun hc => h1 ⟨hc.1, (gtNumber_labelsLength a).2 hc.2⟩
    by_cases h2 : ltNumber (statsCount a) 10 = true
    · have h2b := (ltNumber_statsCount a).1 h2
      refine ⟨⟨[], [moreDataMessage], by simp [h1, h2], Or.inr ⟨h1b, rfl⟩,
        Or.inl ⟨h2b, rfl⟩⟩, by simp [h1, h2], by simp [h1, h2], ?_⟩
      refine iff_of_false ?_ h1b
      simp [h1, h2, hne1, hne2, hne3]
    · have h2b : ¬ ∃ s, a.stats = some s ∧ s.count < 10 :=
        fun hc => h2 ((ltNumber_statsCount a).2 hc)
      refine ⟨⟨[], [], by simp [h1, h2], Or.inr ⟨h1b, rfl⟩,
        Or.inr ⟨h2b, rfl⟩⟩, by simp [h1, h2], by simp [h1, h2], ?_⟩
      refine iff_of_false ?_ h1b
      simp [h1, h2, hne2, hne3]

/-- C15, as stated, fails: the record of the sales rows with the value column `profit`
has no statistics, and `generateRecommendations` returns the two fixed messages for it,
not the empty list. -/
theorem generateRecommendations_not_empty_without_stats :
    noStatsRecord.stats = none ∧
      generateRecommendations noStatsRecord = [exportMessage, moreChartsMessage] ∧
      generateRecommendations noStatsRecord ≠ [] := by
  refine ⟨rfl, ?_, ?_⟩
  · decide
  · decide

/-- C15, amended: for every record with stats = null, `generateInsights` returns the
empty list, and `generateRecommendations` tolerates the absence by leaving out the
collect-more-data message only: it returns the bar-chart message when the chart type is
`pie` with more than 8 labels, followed by the two fixed messages. -/
theorem generateRecommendations_without_stats (a : AnalysisRecord) (h : a.stats = none) :
    generateInsights a.stats = [] ∧
      generateRecommendations a =
        (if a.chartType = "pie" ∧ gtNumber (labelsLength a) 8 = true then [barChartMessage]
          else []) ++ [exportMessage, moreChartsMessage] ∧
      moreDataMessage ∉ generateRecommendations a := by
  have hlow : ltNumber (statsCount a) 10 = false := by
    unfold ltNumber statsCount
    rw [h]
    rfl
  have heq : generateRecommendations a =
      (if a.chartType = "pie" ∧ gtNumber (labelsLength a) 8 = true then [barChartMessage]
        else []) ++ [exportMessage, moreChartsMessage] := by
    rw [generateRecommendations_eq]
    simp [hlow]
  refine ⟨by rw [h]; rfl, heq, ?_⟩
  rw [heq]
  have hne1 : moreDataMessage ≠ barChartMessage := by decide
  have hne2 : moreDataMessage ≠ exportMessage := by decide
  have hne3 : moreDataMessage ≠ moreChartsMessage := by decide
  by_cases h1 : a.chartType = "pie" ∧ gtNumber (labelsLength a) 8 = true
  · simp [h1, hne1, hne2, hne3]
  · simp [h1, hne2, hne3]

/-- Witness for C15 amended: the record without statistics. -/
theorem generateRecommendations_without_stats_witness :
    noStatsRecord.stats = none ∧
      (generateInsights noStatsRecord.stats = [] ∧
        generateRecommendations noStatsRecord =
          (if noStatsRecord.chartType = "pie" ∧ gtNumber (labelsLength noStatsRecord) 8 = true
            then [barChartMessage] else []) ++ [exportMessage, moreChartsMessage] ∧
        moreDataMessage ∉ generateRecommendations noStatsRecord) :=
  ⟨rfl, generateRecommendations_without_stats noStatsRecord rfl⟩

/-- C16: for every analysis record and any two clock readings, the two reports of
`generateAnalysisReport` agree on fileName, analysisType, axes, statistics, dataPoints,
insights and recommendations, so they differ at most in reportId and generatedAt; and
dataPoints is the number of labels of the record's series, 0 when the series is missing. -/
theorem generateAnalysisReport_idempotent (a : AnalysisRecord) (c1 c2 : Clock) :
    (generateAnalysisReport c1 a).fileName = (generateAnalysisReport c2 a).fileName ∧
      (generateAnalysisReport c1 a).analysisType = (generateAnalysisReport c2 a).analysisType ∧
      (generateAnalysisReport c1 a).axes = (generateAnalysisReport c2 a).axes ∧
      (generateAnalysisReport c1 a).statistics = (generateAnalysisReport c2 a).statistics ∧
      (generateAnalysisReport c1 a).dataPoints = (generateAnalysisReport c2 a).dataPoints ∧
      (generateAnalysisReport c1 a).insights = (generateAnalysisReport c2 a).insights ∧
      (generateAnalysisReport c1 a).recommendations =
        (generateAnalysisReport c2 a).recommendations ∧
      generateAnalysisReport c2 a =
        { generateAnalysisReport c1 a with
          reportId := (generateAnalysisReport c2 a).reportId,
          generatedAt := (generateAnalysisReport c2 a).generatedAt } ∧
      (∀ d, a.data = some d → (generateAnalysisReport c1 a).dataPoints = d.labels.length) ∧
      (a.data = none → (generateAnalysisReport c1 a).dataPoints = 0) := by
  refine ⟨rfl, rfl, rfl, rfl, rfl, rfl, rfl, rfl, ?_, ?_⟩
  · intro d hd
    unfold generateAnalysisReport labelsLength
    simp only [hd, Option.map_some']
    split
    · rename_i h0; exact h0.symm
    · rfl
  · intro hd
    unfold generateAnalysisReport labelsLength
    simp only [hd, Option.map_none']

theorem generateRecommendations_nine_labels :
    generateRecommendations ninePieRecord =
      [barChartMessage, exportMessage, moreChartsMessage] := by
  decide

/-! ## CSV export -/

theorem arrayJoin_toList (sep : String) (l : List String) :
    (arrayJoin sep l).toList = List.intercalate sep.toList (l.map String.toList) := by
  induction l with
  | nil => rfl
  | cons s t ih =>
    cases t with
    | nil => simp [arrayJoin, List.intercalate]
    | cons u v =>
      simp only [arrayJoin, String.toList, String.data_append] at ih ⊢
      rw [ih]
      simp [List.intercalate, List.intersperse]

theorem mem_arrayJoin (sep : String) (c : Char) (l : List String)
    (h : c ∈ (arrayJoin sep l).toList) : c ∈ sep.toList ∨ ∃ s ∈ l, c ∈ s.toList := by
  induction l with
  | nil => simp [arrayJoin] at h
  | cons s t ih =>
    cases t with
    | nil =>
      simp only [arrayJoin] at h
      exact Or.inr ⟨s, List.mem_cons_self _ _, h⟩
    | cons u v =>
      simp only [arrayJoin, String.toList, String.data_append, List.mem_append] at h ih
      rcases h with (h | h) | h
      · exact Or.inr ⟨s, List.mem_cons_self _ _, h⟩
      · exact Or.inl h
      · rcases ih h with h2 | ⟨w, hw, hc⟩
        · exact Or.inl h2
        · exact Or.inr ⟨w, List.mem_cons_of_mem _ hw, hc⟩

theorem splitLines_arrayJoin (lines : List String) (hne : lines ≠ [])
    (h : ∀ s ∈ lines, '\n' ∉ s.toList) : splitLines (arrayJoin "\n" lines) = lines := by
  unfold splitLines
  rw [arrayJoin_toList]
  have hsep : ("\n" : String).toList = ['\n'] := rfl
  rw [hsep, List.splitOn_intercalate _ '\n']
  · rw [List.map_map]
    have : (String.mk ∘ String.toList) = id := by
      funext s
      rfl
    rw [this, List.map_id]
  · intro l hl
    obtain ⟨s, hs, rfl⟩ := List.mem_map.1 hl
    exact h s hs
  · simpa using hne

/-- C17, as stated, fails: for the single row whose cell holds the two-line text, the CSV
text splits on newline characters into 3 lines, not rows.length + 1 = 2. -/
theorem csv_line_count_with_newline_cell :
    downloadCSVReport (some twoLineCellRows) "data.csv"
        = some { filename := "data.csv", content := "note\n\"x\ny\"" } ∧
      splitLines "note\n\"x\ny\"" = ["note", "\"x", "y\""] ∧
      (splitLines "note\n\"x\ny\"").length ≠ twoLineCellRows.length + 1 := by
  refine ⟨?_, ?_, ?_⟩
  · decide
  · decide
  · decide

/-- C17, amended: for every non-empty row sequence in which no column name and no cell
text contains a newline character, the CSV text built by `downloadCSVReport`, split on
newline characters, is the comma-joined column names (the keys of the first row) followed
by one line per row, so it has rows.length + 1 lines. -/
theorem csv_lines (first : Row) (rest : List Row) (filename : String)
    (hnames : ∀ header ∈ rowKeys first, '\n' ∉ header.toList)
    (hcells : ∀ row ∈ first :: rest, ∀ header ∈ rowKeys first,
      '\n' ∉ (cellOrEmpty (row.get header)).toList) :
    ∃ download, downloadCSVReport (some (first :: rest)) filename = some download ∧
      download.filename = filename ∧
      splitLines download.content =
        arrayJoin "," (rowKeys first) ::
          (first :: rest).map (fun row =>
            arrayJoin "," ((rowKeys first).map (fun header => csvField row header))) ∧
      (splitLines download.content).length = (first :: rest).length + 1 ∧
      (splitLines download.content).head? = some (arrayJoin "," (rowKeys first)) := by
  have hsplit : splitLines (arrayJoin "\n"
      (arrayJoin "," (rowKeys first) ::
        (first :: rest).map (fun row =>
          arrayJoin "," ((rowKeys first).map (fun header => csvField row header))))) =
      arrayJoin "," (rowKeys first) ::
        (first :: rest).map (fun row =>
          arrayJoin "," ((rowKeys first).map (fun header => csvField row header))) := by
    apply splitLines_arrayJoin _ (by simp)
    intro s hs hmem
    have hcomma : '\n' ∉ (",":String).toList := by decide
    rcases List.mem_cons.1 hs with rfl | hs
    · rcases mem_arrayJoin _ _ _ hmem with h | ⟨w, hw, hc⟩
      · exact hcomma h
      · exact hnames w hw hc
    · obtain ⟨row, hrow, rfl⟩ := List.mem_map.1 hs
      rcases mem_arrayJoin _ _ _ hmem with h | ⟨w, hw, hc⟩
      · exact hcomma h
      · obtain ⟨header, hheader, rfl⟩ := List.mem_map.1 hw
        unfold csvField at hc
        simp only [String.toList, String.data_append, List.mem_append] at hc
        have hq : '\n' ∉ ("\"" : String).data := by decide
        rcases hc with (hc | hc) | hc
        · exact hq hc
        · exact hcells row hrow header hheader hc
        · exact hq hc
  refine ⟨_, rfl, rfl, hsplit, ?_, ?_⟩
  · simp only [hsplit, List.length_cons, List.length_map]
  · simp only [hsplit, List.head?_cons]

/-- Witness for C17 amended: the sales rows give the header line and three data lines. -/
theorem csv_lines_witness :
    (downloadCSVReport (some salesRows) "sales.csv").map (fun d => d.content)
        = some "region,sales\n\"East\",\"10\"\n\"East\",\"20\"\n\"West\",\"5\"" ∧
      ∃ download, downloadCSVReport (some salesRows) "sales.csv" = some download ∧
        download.filename = "sales.csv" ∧
        splitLines download.content =
          arrayJoin "," (rowKeys [("region", Cell.str "East"), ("sales", Cell.str "10")]) ::
            salesRows.map (fun row =>
              arrayJoin "," ((rowKeys [("region", Cell.str "East"), ("sales", Cell.str "10")]).map
                (fun header => csvField row header))) ∧
        (splitLines download.content).length = salesRows.length + 1 ∧
        (splitLines download.content).head? =
          some (arrayJoin "," (rowKeys [("region", Cell.str "East"), ("sales", Cell.str "10")])) :=
  ⟨by decide,
   csv_lines [("region", Cell.str "East"), ("sales", Cell.str "10")]
     [[("region", Cell.str "East"), ("sales", Cell.str "20")],
      [("region", Cell.str "West"), ("sales", Cell.str "5")]] "sales.csv"
     (by decide) (by decide)⟩

/-- C18: the claim fails on the code for a cell holding the number 0. The expression
`row[header] || ''` takes the falsy number 0 to the empty string, so the row with the
cells `bolt` and 0 is written as the line `"bolt",""`, not `"bolt","0"`. -/
theorem csv_zero_cell_written_empty :
    downloadCSVReport (some zeroCellRows) "stock.csv"
        = some { filename := "stock.csv", content := "item,qty\n\"bolt\",\"\"" } ∧
      csvField [("item", Cell.str "bolt"), ("qty", Cell.num 0)] "qty" = "\"\"" ∧
      (Cell.num 0).toStr = "0" := by
  refine ⟨?_, ?_, ?_⟩
  · decide
  · decide
  · decide

/-! ## Document report -/

theorem readVariable_yPos (env : PdfEnv) (imgWidth imgHeight : ℚ) :
    readVariable (chartBlockScope env imgWidth imgHeight) "yPos" =
      Except.error JSError.referenceError := by
  rfl

theorem embedChart_doc (env : PdfEnv) (pdf : PdfDoc) (canvas : Canvas) :
    (embedChart env pdf canvas).1 = pdf ∧
      ∃ e, (embedChart env pdf canvas).2 = some e ∧
        (∀ image, canvas.toDataURL = Except.ok image → e = JSError.referenceError) ∧
        (∀ e2, canvas.toDataURL = Except.error e2 → e = e2) := by
  cases h : canvas.toDataURL with
  | error e2 =>
    have hres : embedChart env pdf canvas = (pdf, some e2) := by
      unfold embedChart
      rw [h]
    rw [hres]
    refine ⟨rfl, e2, rfl, ?_, ?_⟩
    · intro image hc; cases hc
    · intro e3 hc; cases hc; rfl
  | ok image =>
    have hres : embedChart env pdf canvas = (pdf, some JSError.referenceError) := by
      unfold embedChart
      rw [h]
      simp only [readVariable_yPos]
    rw [hres]
    refine ⟨rfl, JSError.referenceError, rfl, ?_, ?_⟩
    · intro _ _; rfl
    · intro e3 hc; cases hc

theorem generatePDFReport_doc (env : PdfEnv) (a : AnalysisRecord) (chartCanvas : Option Canvas) :
    (generatePDFReport env a chartCanvas).doc =
      titleAndDetails env a ++
        (match a.stats with
         | some stats => statisticsSection stats
         | none => []) := by
  have hpre : (match a.stats with
      | some stats => titleAndDetails env a ++ statisticsSection stats
      | none => titleAndDetails env a) =
      titleAndDetails env a ++
        (match a.stats with
         | some stats => statisticsSection stats
         | none => []) := by
    cases a.stats <;> simp
  unfold generatePDFReport
  simp only [hpre]
  cases chartCanvas with
  | none => rfl
  | some canvas =>
    simp only
    have h1 := (embedChart_doc env (titleAndDetails env a ++
      (match a.stats with
       | some stats => statisticsSection stats
       | none => [])) canvas).1
    generalize embedChart env (titleAndDetails env a ++
      (match a.stats with
       | some stats => statisticsSection stats
       | none => [])) canvas = res at h1
    obtain ⟨doc, err⟩ := res
    simp only at h1
    subst h1
    cases err <;> rfl

/-- C19: the claim fails on the code for every canvas whose rasterization succeeds. On an
A4 page, with the sales record and such a canvas, the read of `yPos` at line 47 throws a
`ReferenceError` (the variable is declared with `let` inside the statistics block), the
`catch` clause logs it, and the returned document holds the text lines only. For every
page size, record and canvas, the document contains no image and no added page. -/
theorem generatePDFReport_never_embeds_image :
    (generatePDFReport a4Env salesRecord (some okCanvas)).doc =
        titleAndDetails a4Env salesRecord ++ statisticsSection salesStats ∧
      (generatePDFReport a4Env salesRecord (some okCanvas)).consoleErrors =
        [JSError.referenceError] ∧
      ∀ (env : PdfEnv) (a : AnalysisRecord) (canvas : Canvas),
        (∀ image format x y width height,
          PdfOp.addImage image format x y width height ∉
            (generatePDFReport env a (some canvas)).doc) ∧
        PdfOp.addPage ∉ (generatePDFReport env a (some canvas)).doc := by
  refine ⟨?_, ?_, ?_⟩
  · rw [generatePDFReport_doc]
    rfl
  · rfl
  · intro env a canvas
    rw [generatePDFReport_doc]
    cases a.stats with
    | none =>
      refine ⟨fun image format x y width height => ?_, ?_⟩ <;>
        simp [titleAndDetails]
    | some stats =>
      refine ⟨fun image format x y width height => ?_, ?_⟩ <;>
        simp [titleAndDetails, statisticsSection]

/-- C20: for every analysis record, page size and image library, and for every canvas or
none, `generatePDFReport` returns a document: it starts with the title and the five
detail lines, followed, when statistics are present, by the heading and the six lines of
the statistical summary. An exception thrown while embedding the chart image, by
`toDataURL` or later in the block, is passed to `console.error` and not to the caller. -/
theorem generatePDFReport_survives_image_failure (env : PdfEnv) (a : AnalysisRecord)
    (chartCanvas : Option Canvas) :
    (∃ rest, (generatePDFReport env a chartCanvas).doc =
        titleAndDetails env a ++
          (match a.stats with
           | some stats => statisticsSection stats
           | none => []) ++ rest) ∧
      PdfOp.text "Excel Analytics Report" (env.pageWidth / 2) 30 true ∈
        (generatePDFReport env a chartCanvas).doc ∧
      PdfOp.text ("File: " ++ a.fileName) 20 50 false ∈ (generatePDFReport env a chartCanvas).doc ∧
      PdfOp.text ("Generated: " ++ env.today) 20 60 false ∈
        (generatePDFReport env a chartCanvas).doc ∧
      PdfOp.text ("Chart Type: " ++ a.chartType) 20 70 false ∈
        (generatePDFReport env a chartCanvas).doc ∧
      PdfOp.text ("X-Axis: " ++ a.xAxis) 20 80 false ∈ (generatePDFReport env a chartCanvas).doc ∧
      PdfOp.text ("Y-Axis: " ++ a.yAxis) 20 90 false ∈ (generatePDFReport env a chartCanvas).doc ∧
      (∀ stats, a.stats = some stats →
        PdfOp.text "Statistical Summary:" 20 110 false ∈
          (generatePDFReport env a chartCanvas).doc ∧
        PdfOp.text ("Count: " ++ toString stats.count) 20 125 false ∈
          (generatePDFReport env a chartCanvas).doc ∧
        PdfOp.text ("Sum: " ++ toFixed2 stats.sum) 20 135 false ∈
          (generatePDFReport env a chartCanvas).doc ∧
        PdfOp.text ("Average: " ++ toFixed2 stats.avg) 20 145 false ∈
          (generatePDFReport env a chartCanvas).doc ∧
        PdfOp.text ("Median: " ++ medianText stats) 20 155 false ∈
          (generatePDFReport env a chartCanvas).doc ∧
        PdfOp.text ("Minimum: " ++ numberToString stats.min) 20 165 false ∈
          (generatePDFReport env a chartCanvas).doc ∧
        PdfOp.text ("Maximum: " ++ numberToString stats.max) 20 175 false ∈
          (generatePDFReport env a chartCanvas).doc) ∧
      (∀ canvas e, chartCanvas = some canvas → canvas.toDataURL = Except.error e →
        (generatePDFReport env a chartCanvas).consoleErrors = [e]) := by
  rw [generatePDFReport_doc]
  refine ⟨⟨[], by simp⟩, by simp [titleAndDetails], by simp [titleAndDetails],
    by simp [titleAndDetails], by simp [titleAndDetails], by simp [titleAndDetails],
    by simp [titleAndDetails], ?_, ?_⟩
  · intro stats hs
    rw [hs]
    simp only [statisticsSection, List.mem_append, List.mem_cons]
    norm_num
  · intro canvas e hc he
    subst hc
    unfold generatePDFReport
    simp only
    obtain ⟨_, e2, h2, _, h4⟩ := embedChart_doc env (match a.stats with
      | some stats => titleAndDetails env a ++ statisticsSection stats
      | none => titleAndDetails env a) canvas
    have he2 := h4 e he
    subst he2
    generalize embedChart env (match a.stats with
      | some stats => titleAndDetails env a ++ statisticsSection stats
      | none => titleAndDetails env a) canvas = res at h2
    obtain ⟨doc, err⟩ := res
    simp only at h2
    subst h2
    rfl

/-! ## Totality of the grouping loop -/

theorem processRow_keys_not_inherited (xAxis yAxis : String) (pd pd1 : ProcessedData)
    (row : Row) (hpd : ∀ k ∈ pd.map Prod.fst, k ∉ objectPrototypeKeys)
    (hkey : groupKey xAxis row ∉ objectPrototypeKeys)
    (h : processRow xAxis yAxis pd row = Except.ok pd1) :
    ∀ k ∈ pd1.map Prod.fst, k ∉ objectPrototypeKeys := by
  have hk := (processRow_ok xAxis yAxis pd pd1 row h).1
  intro k hmem
  rw [hk] at hmem
  by_cases hin : groupKey xAxis row ∈ pd.map Prod.fst
  · rw [if_pos hin] at hmem
    exact hpd k hmem
  · rw [if_neg hin, List.mem_append, List.mem_singleton] at hmem
    rcases hmem with h1 | h1
    · exact hpd k h1
    · rw [h1]; exact hkey

theorem processRow_inherited (xAxis yAxis : String) (pd : ProcessedData) (row : Row)
    (hpd : ∀ k ∈ pd.map Prod.fst, k ∉ objectPrototypeKeys)
    (hkey : groupKey xAxis row ∈ objectPrototypeKeys) :
    processRow xAxis yAxis pd row = Except.error JSError.typeError := by
  have hnot : groupKey xAxis row ∉ pd.map Prod.fst := fun hin => hpd _ hin hkey
  have hown : ownProperty pd (groupKey xAxis row) = none := (ownProperty_eq_none _ _).2 hnot
  have hget : getProperty pd (groupKey xAxis row) = PropertyValue.inherited := by
    unfold getProperty
    rw [hown]
    simp [hkey]
  unfold processRow
  change (match getProperty pd (groupKey xAxis row) with
    | PropertyValue.array _ =>
      Except.ok (pushOwn pd (groupKey xAxis row) (parseFloatOrZero (row.get yAxis)))
    | PropertyValue.inherited => Except.error JSError.typeError
    | PropertyValue.undefined =>
      Except.ok (pd ++ [(groupKey xAxis row, [parseFloatOrZero (row.get yAxis)])])) =
    Except.error JSError.typeError
  rw [hget]

theorem forEachRow_throws (xAxis yAxis : String) (data : List Row) :
    ∀ pd : ProcessedData, (∀ k ∈ pd.map Prod.fst, k ∉ objectPrototypeKeys) →
      (∃ row ∈ data, groupKey xAxis row ∈ objectPrototypeKeys) →
      forEachRow xAxis yAxis data pd = Except.error JSError.typeError := by
  induction data with
  | nil =>
    intro pd _ hex
    obtain ⟨row, hrow, _⟩ := hex
    simp at hrow
  | cons row rest ih =>
    intro pd hpd hex
    by_cases hkey : groupKey xAxis row ∈ objectPrototypeKeys
    · simp only [forEachRow, processRow_inherited xAxis yAxis pd row hpd hkey]
    · have hrest : ∃ r ∈ rest, groupKey xAxis r ∈ objectPrototypeKeys := by
        obtain ⟨r, hr, hk⟩ := hex
        rcases List.mem_cons.1 hr with e | e
        · exact absurd (e ▸ hk) hkey
        · exact ⟨r, e, hk⟩
      cases hstep : processRow xAxis yAxis pd row with
      | error e =>
        obtain ⟨pd2, h2⟩ := forEachRow_total xAxis yAxis [row]
          (by
            intro r hr
            rw [List.mem_singleton] at hr
            rw [hr]; exact hkey) pd
        simp only [forEachRow, hstep] at h2
        cases h2
      | ok pd1 =>
        simp only [forEachRow, hstep]
        exact ih pd1 (processRow_keys_not_inherited xAxis yAxis pd pd1 row hpd hkey hstep) hrest

/-- C21: the grouping loop is not total over group keys. After a row of the group `East`,
a row whose key is `constructor`, `toString`, `valueOf`, `hasOwnProperty` or `__proto__`
makes the loop throw a `TypeError`: the read `processedData[xValue]` finds the inherited
property, which is truthy and has no `push`. In general the aggregation returns a series
exactly when no row's group key is the name of a property inherited from
`Object.prototype`, and throws a `TypeError` otherwise. -/
theorem grouping_loop_throws_on_inherited_keys :
    prepareChartData (rowsWithKey "constructor") "region" "sales"
        = Except.error JSError.typeError ∧
      prepareChartData (rowsWithKey "toString") "region" "sales"
        = Except.error JSError.typeError ∧
      prepareChartData (rowsWithKey "valueOf") "region" "sales"
        = Except.error JSError.typeError ∧
      prepareChartData (rowsWithKey "hasOwnProperty") "region" "sales"
        = Except.error JSError.typeError ∧
      prepareChartData (rowsWithKey "__proto__") "region" "sales"
        = Except.error JSError.typeError ∧
      prepareChartData (rowsWithKey "West") "region" "sales"
        = Except.ok { labels := ["East", "West"], values := [10, 5] } ∧
      ∀ (data : List Row) (xAxis yAxis : String),
        ((∃ res, prepareChartData data xAxis yAxis = Except.ok res) ↔
          ∀ row ∈ data, groupKey xAxis row ∉ objectPrototypeKeys) ∧
        ((∃ row ∈ data, groupKey xAxis row ∈ objectPrototypeKeys) →
          prepareChartData data xAxis yAxis = Except.error JSError.typeError) := by
  have hthrow : ∀ (data : List Row) (xAxis yAxis : String),
      (∃ row ∈ data, groupKey xAxis row ∈ objectPrototypeKeys) →
        prepareChartData data xAxis yAxis = Except.error JSError.typeError := by
    intro data xAxis yAxis hex
    unfold prepareChartData
    rw [forEachRow_throws xAxis yAxis data [] (by simp) hex]
  refine ⟨rfl, rfl, rfl, rfl, rfl, by with_unfolding_all rfl, ?_⟩
  intro data xAxis yAxis
  refine ⟨⟨?_, prepareChartData_total data xAxis yAxis⟩, hthrow data xAxis yAxis⟩
  rintro ⟨res, hres⟩ row hrow hkey
  rw [hthrow data xAxis yAxis ⟨row, hrow, hkey⟩] at hres
  cases hres

end ExcelAnalytics
